import Mathlib

/-!
Verification of `langgraph/utils/runnable.py` (the composable-unit runtime).

This file shallowly embeds the data model and the operations of the source
file: `RunnableCallable` (atomic callable unit), `RunnableSeq` (sequence
unit), `coerce_to_runnable`, and the four invocation modes (`invoke`,
`ainvoke`, and the chunk loops of `stream` / `astream`).

Modelling conventions:
* Python values are the inductive `Value`; wrapped user functions live in an
  environment `Env` (indexed by `Nat`), so a claim quantifying over "every
  function" quantifies over the environment.
* Exceptions are `Except PyErr`; a wrapped function's own exception is
  `PyErr.userError tag`, whose tag tracks exception identity.
* The tracing run-manager collaborator is observed through an event trace:
  each `on_chain_start` allocates a fresh span id from a counter, and
  `on_chain_end` / `on_chain_error` carry the span id they close.  A
  `funcCall` event records the exact keyword arguments handed to a wrapped
  function.
* The ambient context snapshot machinery (`copy_context`,
  `_set_config_context`) and asyncio task scheduling are concurrency
  plumbing with no effect on the values, events, or exceptions modelled
  here; they are not represented.
* External collaborators from `langchain_core` (`RunnableLambda`,
  `RunnableParallel`, `ensure_config`) are modelled at their interface as
  opaque invocables / total defaults, per spec section 1 ("out of scope,
  specified only at their interface boundary").
-/

/-- A child-callbacks handle as produced by `run_manager.get_child(tag)`:
the parent span id plus the optional label such as `"seq:step:1"`. -/
structure Callbacks where
  parent : Nat
  tag : Option String
deriving Repr, DecidableEq

/-- The execution context (`RunnableConfig`).  Only the fields this module
reads or writes are modelled; each is optional, mirroring dict-key
presence. -/
structure Config where
  tags : Option (List String) := Option.none
  runName : Option String := Option.none
  runId : Option Nat := Option.none
  callbacks : Option Callbacks := Option.none
deriving Repr, DecidableEq

/-- Python exceptions relevant to this module.  `userError` is an exception
raised by a wrapped user function; its tag models exception identity, so
re-raising "unchanged" is equality of the `PyErr`.  `fuel` is not a Python
exception: it marks model-side recursion-budget exhaustion (a run that
would not have terminated). -/
inductive PyErr where
  | typeError (msg : String)
  | valueError (msg : String)
  | userError (tag : Nat)
  | fuel
deriving Repr, DecidableEq

/-- The async function slot of a `RunnableCallable`: either a genuinely
asynchronous function, or the wrapper `wraps(f)(partial(run_in_executor,
None, f))` that `coerce_to_runnable` derives around a sync function `f`. -/
inductive AFuncRef where
  | native (i : Nat)
  | wrapped (i : Nat)
deriving Repr, DecidableEq

mutual

/-- A Python value as far as this module inspects one: the run-time
type test that matters is `isinstance(ret, Runnable)`. -/
inductive Value where
  | int (n : Int) : Value
  | str (s : String) : Value
  | bool (b : Bool) : Value
  | pylist (xs : List Value) : Value
  | dict (entries : List (String × Value)) : Value
  | config (c : Option Config) : Value
  | runnable (r : Runnable) : Value
  | none : Value

/-- The fields of a `RunnableCallable` (runnable.py:51-84):
sync function, async function, display name, the tags stored as
`self.config`, fixed kwargs, `trace`, `recurse`, and the two
`accepts_config` signature probes. -/
inductive CallableData where
  | mk (func : Option Nat) (afunc : Option AFuncRef) (name : Option String)
       (tags : List String) (kwargs : List (String × Value))
       (trace : Bool) (recurse : Bool)
       (funcAcceptsConfig : Bool) (afuncAcceptsConfig : Bool) : CallableData

/-- A runnable unit.  `callable` and `seq` are this module's
`RunnableCallable` and `RunnableSeq`; `extSeq` is langchain's
`RunnableSequence` (first/middle/last); `lam` and `parallel` are the
opaque external units produced by coercion of generator functions and
mappings. -/
inductive Runnable where
  | callable (d : CallableData) : Runnable
  | seq (steps : List Runnable) (name : Option String) : Runnable
  | extSeq (first : Runnable) (middle : List Runnable) (last : Runnable)
      (name : Option String) : Runnable
  | lam (i : Nat) (name : Option String) : Runnable
  | parallel (k : Nat) : Runnable

end

def CallableData.func : CallableData → Option Nat
  | .mk f _ _ _ _ _ _ _ _ => f

def CallableData.afunc : CallableData → Option AFuncRef
  | .mk _ a _ _ _ _ _ _ _ => a

def CallableData.name : CallableData → Option String
  | .mk _ _ n _ _ _ _ _ _ => n

def CallableData.tags : CallableData → List String
  | .mk _ _ _ t _ _ _ _ _ => t

def CallableData.kwargs : CallableData → List (String × Value)
  | .mk _ _ _ _ k _ _ _ _ => k

def CallableData.trace : CallableData → Bool
  | .mk _ _ _ _ _ t _ _ _ => t

def CallableData.recurse : CallableData → Bool
  | .mk _ _ _ _ _ _ r _ _ => r

def CallableData.funcAcceptsConfig : CallableData → Bool
  | .mk _ _ _ _ _ _ _ f _ => f

def CallableData.afuncAcceptsConfig : CallableData → Bool
  | .mk _ _ _ _ _ _ _ _ a => a

/-- Python keyword-argument dictionaries. -/
abbrev Kwargs := List (String × Value)

/-- Dictionary key lookup. -/
def dictLookup (d : Kwargs) (k : String) : Option Value :=
  (d.find? (fun kv => kv.1 == k)).map (fun kv => kv.2)

/-- Python dict merge `{**a, **b}`: keys of `a` in order with values
overridden by `b`, then the keys of `b` not already in `a`. -/
def dictMerge (a b : Kwargs) : Kwargs :=
  (a.map (fun kv =>
    match dictLookup b kv.1 with
    | Option.some v => (kv.1, v)
    | Option.none => kv)) ++
  b.filter (fun kv => (dictLookup a kv.1).isNone)

/-- Python dict item assignment `d[k] = v`. -/
def dictSet (d : Kwargs) (k : String) (v : Value) : Kwargs :=
  if (dictLookup d k).isSome then
    d.map (fun kv => if kv.1 == k then (k, v) else kv)
  else
    d ++ [(k, v)]

/-- Python `a or b` on optional strings (`None` and `""` are falsy). -/
def pyOrStr (a b : Option String) : Option String :=
  match a with
  | Option.some s => if s = "" then b else Option.some s
  | Option.none => b

/-- Whether a runnable is a `RunnableSeq` (this module's sequence kind). -/
def Runnable.isSeq : Runnable → Bool
  | .seq _ _ => true
  | _ => false

def Runnable.name : Runnable → Option String
  | .callable d => d.name
  | .seq _ nm => nm
  | .extSeq _ _ _ nm => nm
  | .lam _ nm => nm
  | .parallel _ => Option.none

def Runnable.className : Runnable → String
  | .callable _ => "RunnableCallable"
  | .seq _ _ => "RunnableSeq"
  | .extSeq _ _ _ _ => "RunnableSequence"
  | .lam _ _ => "RunnableLambda"
  | .parallel _ => "RunnableParallel"

/-- `self.get_name()`: the display name, falling back to the class name
(langchain `Runnable.get_name`, observed at its interface). -/
def Runnable.get_name (r : Runnable) : String :=
  match r.name with
  | Option.some s => if s = "" then r.className else s
  | Option.none => r.className

/-- Modelled from the spec: `merge_configs` lives in
`langgraph/utils/config.py`, which is not among the provided sources.
Spec section 6: "merge(base, override) -> context (override wins
field-by-field)". -/
def merge_configs (base override : Option Config) : Option Config :=
  match base, override with
  | Option.none, o => o
  | b, Option.none => b
  | Option.some b, Option.some o =>
      Option.some
        { tags := o.tags <|> b.tags
          runName := o.runName <|> b.runName
          runId := o.runId <|> b.runId
          callbacks := o.callbacks <|> b.callbacks }

/-- Modelled from the spec: `patch_config` lives in
`langgraph/utils/config.py`, which is not among the provided sources.
Spec section 6: "deriveChild(context, callbackHandle) -> context"; the
derived context carries the given callbacks handle. -/
def patch_config (cfg : Config) (cb : Callbacks) : Config :=
  { cfg with callbacks := Option.some cb }

/-- External langchain collaborator `ensure_config`, at its interface:
a missing context is replaced by the default (empty) context. -/
def ensure_config (cfg : Option Config) : Config :=
  cfg.getD {}

/-- `self.config = {"tags": tags} if tags else None` (runnable.py:81). -/
def selfConfig (d : CallableData) : Option Config :=
  if d.tags = [] then Option.none
  else Option.some { tags := Option.some d.tags }

/-- The resolved effective context of a callable invocation
(runnable.py:106 and 142): the unit's fixed tags merged under the
caller-supplied context, the caller's fields winning. -/
def resolvedContext (d : CallableData) (config : Option Config) : Config :=
  ensure_config (merge_configs (selfConfig d) config)

/-- A "runnable-like" argument (`RunnableLike`) as classified by
`coerce_to_runnable` (runnable.py:200-229): an existing runnable, a plain
sync or async callable (with its `__name__`, `None` for a lambda or a
callable without one, and its `accepts_config` probe result), a generator
function, a mapping, or an unsupported value carrying its type name. -/
inductive PyObj where
  | runnable (r : Runnable)
  | syncFn (i : Nat) (fname : Option String) (acc : Bool)
  | asyncFn (i : Nat) (fname : Option String) (acc : Bool)
  | genFn (i : Nat) (fname : Option String)
  | dictObj (k : Nat)
  | other (ty : String)

/-- `coerce_to_runnable(thing, *, name, trace)` (runnable.py:200-229).
A sync callable also receives the auto-derived async wrapper
`wraps(thing)(partial(run_in_executor, None, thing))`, modelled as
`AFuncRef.wrapped`; `wraps` preserves the signature, so both
`accepts_config` probes agree.  The `name` resolution is
`RunnableCallable.__init__`'s (runnable.py:62-74): the explicit name, else
the bound function's `__name__`. -/
def coerce_to_runnable (thing : PyObj) (name : Option String) (trace : Bool) :
    Except PyErr Runnable :=
  match thing with
  | .runnable r => .ok r
  | .genFn i fname => .ok (.lam i (name <|> fname))
  | .syncFn i fname acc =>
      .ok (.callable (.mk (Option.some i) (Option.some (.wrapped i))
        (name <|> fname) [] [] trace true acc acc))
  | .asyncFn i fname acc =>
      .ok (.callable (.mk Option.none (Option.some (.native i))
        (name <|> fname) [] [] trace true false acc))
  | .dictObj k => .ok (.parallel k)
  | .other ty =>
      .error (.typeError
        ("Expected a Runnable, callable or dict." ++
         "Instead got an unsupported type: " ++ ty))

/-- A Python call of `coerce_to_runnable` with possibly-omitted arguments:
`name` and `trace` are required keyword-only parameters (no defaults), so
omitting them raises `TypeError` before the function body runs. -/
def coerce_to_runnable_call (thing : PyObj) (name : Option (Option String))
    (trace : Option Bool) : Except PyErr Runnable :=
  match name, trace with
  | Option.some n, Option.some t => coerce_to_runnable thing n t
  | Option.none, Option.none =>
      .error (.typeError
        "coerce_to_runnable() missing 2 required keyword-only arguments: 'name' and 'trace'")
  | Option.none, Option.some _ =>
      .error (.typeError
        "coerce_to_runnable() missing 1 required keyword-only argument: 'name'")
  | Option.some _, Option.none =>
      .error (.typeError
        "coerce_to_runnable() missing 1 required keyword-only argument: 'trace'")

/-- The flattening loop of `RunnableSeq.__init__` (runnable.py:252-259):
a `RunnableSequence` or `RunnableSeq` argument has its steps spliced in,
anything else is coerced with `name=None, trace=True`. -/
def flattenSteps : List PyObj → Except PyErr (List Runnable)
  | [] => .ok []
  | step :: rest => do
      let hd ← match step with
        | .runnable (.extSeq f m l _) => pure (f :: (m ++ [l]))
        | .runnable (.seq ss _) => pure ss
        | s => do
            let r ← coerce_to_runnable_call s (Option.some Option.none) (Option.some true)
            pure [r]
      let tl ← flattenSteps rest
      pure (hd ++ tl)

/-- `RunnableSeq.__init__` (runnable.py:235-265): flatten one level, then
fail with `ValueError` if fewer than 2 steps remain. -/
def RunnableSeq.init (steps : List PyObj) (name : Option String) :
    Except PyErr Runnable := do
  let flat ← flattenSteps steps
  if flat.length < 2 then
    .error (.valueError
      ("RunnableSeq must have at least 2 steps, got " ++ toString flat.length))
  else
    .ok (.seq flat name)

/-- The langchain `RunnableSequence` constructor, at its interface: it
keeps its steps as first/middle/last and also requires at least two. -/
def mkRunnableSequence (steps : List Runnable) (name : Option String) :
    Except PyErr Runnable :=
  match steps with
  | f :: s :: rest =>
      .ok (.extSeq f ((s :: rest).dropLast) ((s :: rest).getLast (by simp)) name)
  | _ => .error (.valueError "RunnableSequence must have at least 2 steps.")

/-- `RunnableSeq.__or__` (runnable.py:267-290), the append operator, as a
function of the receiver's steps and name.  Note the final branch calls
`coerce_to_runnable(other)` without the required keyword-only `name` and
`trace` arguments. -/
def RunnableSeq.or (steps : List Runnable) (name : Option String)
    (other : PyObj) : Except PyErr Runnable :=
  match other with
  | .runnable (.extSeq f m l oname) =>
      RunnableSeq.init ((steps ++ (f :: (m ++ [l]))).map .runnable)
        (pyOrStr name oname)
  | .runnable (.seq osteps oname) =>
      RunnableSeq.init ((steps ++ osteps).map .runnable) (pyOrStr name oname)
  | o => do
      let c ← coerce_to_runnable_call o Option.none Option.none
      RunnableSeq.init ((steps.map .runnable) ++ [.runnable c]) name

/-- `RunnableSeq.__ror__` (runnable.py:292-315), the prepend operator.
The `RunnableSequence` and plain-value branches build a langchain
`RunnableSequence`; the final branch has the same missing-keyword-argument
call as `__or__`. -/
def RunnableSeq.ror (steps : List Runnable) (name : Option String)
    (other : PyObj) : Except PyErr Runnable :=
  match other with
  | .runnable (.extSeq f m l oname) =>
      mkRunnableSequence ((f :: (m ++ [l])) ++ steps) (pyOrStr oname name)
  | .runnable (.seq osteps oname) =>
      RunnableSeq.init ((osteps ++ steps).map .runnable) (pyOrStr oname name)
  | o => do
      let c ← coerce_to_runnable_call o Option.none Option.none
      mkRunnableSequence (c :: steps) name

/-- The function environment: the bodies of the wrapped user functions.
`senv` are synchronous functions, `aenv` asynchronous ones (both receive
the input and the keyword-argument dict, which holds the injected
`"config"` entry when the signature accepts one); `lenv` and `penv` are
the opaque external `RunnableLambda` / `RunnableParallel` behaviours. -/
structure Env where
  senv : Nat → Value → Kwargs → Except PyErr Value
  aenv : Nat → Value → Kwargs → Except PyErr Value
  lenv : Nat → Value → Option Config → Except PyErr Value
  penv : Nat → Value → Option Config → Except PyErr Value

/-- One observable interaction with the tracing collaborator, or a call of
a wrapped function.  Span ids are allocated from a counter, so each
`on_chain_start` carries a fresh id and the matching terminal carries the
same id. -/
inductive Event where
  | on_chain_start (sid : Nat) (name : Option String) (input : Value)
      (runId : Option Nat) : Event
  | on_chain_end (sid : Nat) (output : Value) : Event
  | on_chain_error (sid : Nat) (e : PyErr) : Event
  | funcCall (kwargs : Kwargs) : Event

/-- The span id an event belongs to (`funcCall` has none). -/
def Event.sid : Event → Option Nat
  | .on_chain_start s _ _ _ => Option.some s
  | .on_chain_end s _ => Option.some s
  | .on_chain_error s _ => Option.some s
  | .funcCall _ => Option.none

/-- The events of a trace that belong to the span `sid`. -/
def spanEvents (sid : Nat) (evs : List Event) : List Event :=
  evs.filter (fun e => e.sid == Option.some sid)

/-- The outcome of one invocation: the returned value or propagated
exception, the emitted event trace, and the next free span id. -/
structure Res where
  res : Except PyErr Value
  evs : List Event
  ctr : Nat

/-- The keyword arguments handed to the wrapped function
(runnable.py:103-105 and 139-141): call-site kwargs merged over the
fixed kwargs, then the caller-supplied context injected under `"config"`
when the signature accepts it.  The injection happens before
`merge_configs` runs, so the injected context is the context exactly as
the caller passed it. -/
def buildCallKwargs (fixed callKw : Kwargs) (accepts : Bool)
    (config : Option Config) : Kwargs :=
  let k := dictMerge fixed callKw
  if accepts then dictSet k "config" (.config config) else k

/-- The `TypeError` message of runnable.py:98-102 (a `None` display name
prints as `None` in the f-string). -/
def noSyncMsg (name : Option String) : String :=
  "No synchronous function provided to \"" ++ name.getD "None" ++ "\"." ++
  "\nEither initialize with a synchronous function or invoke" ++
  " via the async API (ainvoke, astream, etc.)"

/-- The recursion tail shared by `invoke` and `ainvoke`
(runnable.py:130-132 and 173-175): if the wrapped function's result is
itself a runnable and `recurse` is set, re-invoke it (same mode, via
`rec`) with the original input and the given outer context, appending its
events to the ones already emitted; otherwise return the raw result. -/
def maybeRecurse (rec : Runnable → Value → Option Config → Kwargs → Nat → Res)
    (recurse : Bool) (ret : Value) (input : Value) (config : Option Config)
    (evs0 : List Event) (n : Nat) : Res :=
  match ret with
  | .runnable r2 =>
      if recurse then
        let inner := rec r2 input config [] n
        ⟨inner.res, evs0 ++ inner.evs, inner.ctr⟩
      else ⟨.ok ret, evs0, n⟩
  | ret2 => ⟨.ok ret2, evs0, n⟩

/-- `RunnableCallable.invoke` (runnable.py:94-132), parametric in the
dispatcher `rec` used for the recursive `ret.invoke(input, config)` on a
returned runnable.  In the traced branch the merged context has its
`run_id` consumed by `on_chain_start`, and the recursion receives that
outer context, not the `child_config` derived for the wrapped function's
ambient snapshot. -/
def invokeCallable (E : Env)
    (rec : Runnable → Value → Option Config → Kwargs → Nat → Res)
    (d : CallableData) (input : Value) (config : Option Config)
    (kwargs : Kwargs) (n : Nat) : Res :=
  match d.func with
  | Option.none => ⟨.error (.typeError (noSyncMsg d.name)), [], n⟩
  | Option.some f =>
      let kws := buildCallKwargs d.kwargs kwargs d.funcAcceptsConfig config
      let cfg := resolvedContext d config
      if d.trace then
        let sid := n
        let startEv := Event.on_chain_start sid
          (pyOrStr cfg.runName (Option.some (Runnable.get_name (.callable d))))
          input cfg.runId
        let cfg2 : Config := { cfg with runId := Option.none }
        match E.senv f input kws with
        | .error e =>
            ⟨.error e, [startEv, .funcCall kws, .on_chain_error sid e], n + 1⟩
        | .ok ret =>
            maybeRecurse rec d.recurse ret input (Option.some cfg2)
              [startEv, .funcCall kws, .on_chain_end sid ret] (n + 1)
      else
        match E.senv f input kws with
        | .error e => ⟨.error e, [.funcCall kws], n⟩
        | .ok ret =>
            maybeRecurse rec d.recurse ret input (Option.some cfg)
              [.funcCall kws] n

/-- The step loop of `RunnableSeq.invoke` / `ainvoke` (runnable.py:333-343
and 371-385): each step gets a context patched with a child handle
labelled `seq:step:<i+1>`, only the first step receives the call-site
kwargs, and each step's output feeds the next step. -/
def invokeSteps (step : Runnable → Value → Option Config → Kwargs → Nat → Res)
    (sid : Nat) : Nat → List Runnable → Value → Config → Kwargs → Nat → Res
  | _, [], acc, _, _, n => ⟨.ok acc, [], n⟩
  | i, s :: rest, acc, cfg, kwargs, n =>
      let cfgi := patch_config cfg ⟨sid, Option.some ("seq:step:" ++ toString (i + 1))⟩
      let r := step s acc (Option.some cfgi) (if i = 0 then kwargs else []) n
      match r.res with
      | .error e => ⟨.error e, r.evs, r.ctr⟩
      | .ok v =>
          let rest' := invokeSteps step sid (i + 1) rest v cfgi kwargs r.ctr
          ⟨rest'.res, r.evs ++ rest'.evs, rest'.ctr⟩

/-- Closing a sequence invocation's root span (runnable.py:344-350): one
terminal event matching the steps' outcome, appended after the start event
and the steps' events. -/
def seqClose (sid : Nat) (startEv : Event) (inner : Res) : Res :=
  match inner.res with
  | .error e => ⟨.error e, startEv :: inner.evs ++ [.on_chain_error sid e], inner.ctr⟩
  | .ok v => ⟨.ok v, startEv :: inner.evs ++ [.on_chain_end sid v], inner.ctr⟩

/-- `RunnableSeq.invoke` / `ainvoke` (runnable.py:317-350 and 352-392),
parametric in the per-step dispatcher: open the root span (consuming any
explicit `run_id`), run the steps in order, then close the span with the
final value or the propagated exception. -/
def invokeSeq (step : Runnable → Value → Option Config → Kwargs → Nat → Res)
    (steps : List Runnable) (name : Option String) (input : Value)
    (config : Option Config) (kwargs : Kwargs) (n : Nat) : Res :=
  let cfg := ensure_config config
  let sid := n
  let startEv := Event.on_chain_start sid
    (pyOrStr cfg.runName (Option.some (Runnable.get_name (.seq steps name))))
    input cfg.runId
  let cfg2 : Config := { cfg with runId := Option.none }
  seqClose sid startEv (invokeSteps step sid 0 steps input cfg2 kwargs (n + 1))

/-- The synchronous dispatcher `r.invoke(input, config, **kwargs)`.  The
fuel bounds the depth of recursive re-invocation of returned units (a
depth Python does not bound either); exhaustion yields the model-only
`PyErr.fuel`.  The external `RunnableSequence` runs its steps in order
like `RunnableSeq` (its langchain contract); `RunnableLambda` and
`RunnableParallel` are opaque external invocables. -/
def invoke (E : Env) : Nat → Runnable → Value → Option Config → Kwargs → Nat → Res
  | 0, _, _, _, _, n => ⟨.error .fuel, [], n⟩
  | fuel + 1, r, input, config, kwargs, n =>
      match r with
      | .callable d => invokeCallable E (invoke E fuel) d input config kwargs n
      | .seq steps nm => invokeSeq (invoke E fuel) steps nm input config kwargs n
      | .extSeq f m l nm =>
          invokeSeq (invoke E fuel) (f :: (m ++ [l])) nm input config kwargs n
      | .lam i _ => ⟨E.lenv i input config, [], n⟩
      | .parallel k => ⟨E.penv k input config, [], n⟩

/-- `RunnableCallable.ainvoke`'s main path (runnable.py:139-175), once an
async function is bound: the mirror of `invokeCallable` over the async
function (`AFuncRef.wrapped` runs the original sync function via
`run_in_executor`), with the recursive call using `ret.ainvoke`.  Note
the traced branch names the span with `self.name`, not `get_name()`. -/
def ainvokeCallable (E : Env)
    (rec : Runnable → Value → Option Config → Kwargs → Nat → Res)
    (d : CallableData) (ar : AFuncRef) (input : Value) (config : Option Config)
    (kwargs : Kwargs) (n : Nat) : Res :=
  let kws := buildCallKwargs d.kwargs kwargs d.afuncAcceptsConfig config
  let cfg := resolvedContext d config
  let runA : Except PyErr Value :=
    match ar with
    | .native j => E.aenv j input kws
    | .wrapped j => E.senv j input kws
  if d.trace then
    let sid := n
    let startEv := Event.on_chain_start sid (pyOrStr cfg.runName d.name)
      input cfg.runId
    let cfg2 : Config := { cfg with runId := Option.none }
    match runA with
    | .error e =>
        ⟨.error e, [startEv, .funcCall kws, .on_chain_error sid e], n + 1⟩
    | .ok ret =>
        maybeRecurse rec d.recurse ret input (Option.some cfg2)
          [startEv, .funcCall kws, .on_chain_end sid ret] (n + 1)
  else
    match runA with
    | .error e => ⟨.error e, [.funcCall kws], n⟩
    | .ok ret =>
        maybeRecurse rec d.recurse ret input (Option.some cfg)
          [.funcCall kws] n

/-- The asynchronous dispatcher `r.ainvoke(input, config, **kwargs)`.  A
callable with no async function falls back to `self.invoke(input,
config)` (runnable.py:137-138) — without forwarding the call-site
kwargs. -/
def ainvoke (E : Env) : Nat → Runnable → Value → Option Config → Kwargs → Nat → Res
  | 0, _, _, _, _, n => ⟨.error .fuel, [], n⟩
  | fuel + 1, r, input, config, kwargs, n =>
      match r with
      | .callable d =>
          match d.afunc with
          | Option.none => invoke E (fuel + 1) (.callable d) input config [] n
          | Option.some ar => ainvokeCallable E (ainvoke E fuel) d ar input config kwargs n
      | .seq steps nm => invokeSeq (ainvoke E fuel) steps nm input config kwargs n
      | .extSeq f m l nm =>
          invokeSeq (ainvoke E fuel) (f :: (m ++ [l])) nm input config kwargs n
      | .lam i _ => ⟨E.lenv i input config, [], n⟩
      | .parallel k => ⟨E.penv k input config, [], n⟩

/-- Python `output + chunk` on the value types this model carries:
defined for matching numbers, strings and lists; any other pairing
(including a `None` accumulator) raises `TypeError`, modelled as
`Option.none`. -/
def addValue : Value → Value → Option Value
  | .int a, .int b => Option.some (.int (a + b))
  | .str a, .str b => Option.some (.str (a ++ b))
  | .pylist a, .pylist b => Option.some (.pylist (a ++ b))
  | _, _ => Option.none

/-- The chunk-collection loop of `RunnableSeq.stream` (runnable.py:435-449)
over the chunks the chained iterator yields, carrying the `output` slot
(initially `None`) and the `add_supported` flag (initialized `False` at
runnable.py:436; its only other assignment, runnable.py:447, also sets it
`False`).  Returns the final `output` and flag. -/
def Value.isNone : Value → Bool
  | .none => true
  | _ => false

def streamLoop : Value → Bool → List Value → Value × Bool
  | output, addS, [] => (output, addS)
  | output, addS, chunk :: rest =>
      if output.isNone then
        streamLoop chunk addS rest
      else if addS then
        match addValue output chunk with
        | Option.some s => streamLoop s true rest
        | Option.none => streamLoop chunk false rest
      else
        streamLoop chunk false rest

/-- The chunk-collection loop of `RunnableSeq.astream`
(runnable.py:502-514): unlike `stream` it has no `output is None` branch,
so with `add_supported` true a `None` accumulator would raise `TypeError`
into the except branch; with the flag's initial `False` every chunk just
overwrites the slot. -/
def astreamLoop : Value → Bool → List Value → Value × Bool
  | output, addS, [] => (output, addS)
  | output, addS, chunk :: rest =>
      if addS then
        match addValue output chunk with
        | Option.some s => astreamLoop s true rest
        | Option.none => astreamLoop chunk false rest
      else
        astreamLoop chunk false rest

/-- `RunnableSeq.stream` (runnable.py:394-454).  The construction of the
chained iterator (step 1's `stream`, later steps' `transform`, the
optional tracer output tap) is external langchain machinery abstracted by
`chunks` and `iterErr`: the chunks the final iterator yields, in order,
before completing normally (`iterErr = none`) or raising.  The model
returns the chunks yielded to the caller, the completion status, the
events of the root span, and the next free span id. -/
def RunnableSeq.streamRun (steps : List Runnable) (name : Option String)
    (input : Value) (config : Option Config) (chunks : List Value)
    (iterErr : Option PyErr) (n : Nat) :
    List Value × Except PyErr Unit × List Event × Nat :=
  let cfg := ensure_config config
  let sid := n
  let startEv := Event.on_chain_start sid
    (pyOrStr cfg.runName (Option.some (Runnable.get_name (.seq steps name))))
    input cfg.runId
  match iterErr with
  | Option.some e => (chunks, .error e, [startEv, .on_chain_error sid e], n + 1)
  | Option.none =>
      let out := (streamLoop Value.none false chunks).1
      (chunks, .ok (), [startEv, .on_chain_end sid out], n + 1)

/-- `RunnableSeq.astream` (runnable.py:456-519), abstracted the same way
as `streamRun` (the `AsyncExitStack` close-guarantees are resource
management outside this model). -/
def RunnableSeq.astreamRun (steps : List Runnable) (name : Option String)
    (input : Value) (config : Option Config) (chunks : List Value)
    (iterErr : Option PyErr) (n : Nat) :
    List Value × Except PyErr Unit × List Event × Nat :=
  let cfg := ensure_config config
  let sid := n
  let startEv := Event.on_chain_start sid
    (pyOrStr cfg.runName (Option.some (Runnable.get_name (.seq steps name))))
    input cfg.runId
  match iterErr with
  | Option.some e => (chunks, .error e, [startEv, .on_chain_error sid e], n + 1)
  | Option.none =>
      let out := (astreamLoop Value.none false chunks).1
      (chunks, .ok (), [startEv, .on_chain_end sid out], n + 1)

/-- Whether a runnable is one of the two sequence kinds the constructor
flattens. -/
def Runnable.isSeqLike : Runnable → Bool
  | .seq _ _ => true
  | .extSeq _ _ _ _ => true
  | _ => false

/-- The sequence-unit invariant on a constructor argument: any sequence
passed in has no `RunnableSeq` among the children that will be spliced
into the new sequence. -/
def stepOk : PyObj → Bool
  | .runnable (.seq ss _) => ss.all (fun x => !x.isSeq)
  | .runnable (.extSeq f m l _) =>
      !f.isSeq && m.all (fun x => !x.isSeq) && !l.isSeq
  | _ => true

/-- The context a sequence hands to its `i`-th step (1-indexed): the
ensured caller context with its `run_id` consumed by the root span and the
callbacks replaced by the root span's child handle `seq:step:<i>`. -/
def seqStepConfig (config : Option Config) (sid : Nat) (i : Nat) : Config :=
  { ensure_config config with
      runId := Option.none
      callbacks := Option.some ⟨sid, Option.some ("seq:step:" ++ toString i)⟩ }

/-- All span ids occurring in a trace lie in the interval `[lo, hi)`. -/
def evsBounded (lo hi : Nat) (evs : List Event) : Prop :=
  ∀ e ∈ evs, ∀ s, Event.sid e = Option.some s → lo ≤ s ∧ s < hi

/-- A dispatcher allocates span ids freshly: the counter never decreases
and every emitted span id lies between the entry and exit counters. -/
def FreshSpec (f : Runnable → Value → Option Config → Kwargs → Nat → Res) : Prop :=
  ∀ r input cfg kw n,
    n ≤ (f r input cfg kw n).ctr ∧
    evsBounded n ((f r input cfg kw n).ctr) ((f r input cfg kw n).evs)

/-- The root-span lifecycle of one invocation frame that allocated span
`n` on `input`: the frame's span sees exactly one start followed by
exactly one terminal event; an error terminal carries exactly the
exception the frame re-raises; a successful frame's terminal is an end
event. -/
def okSpan (n : Nat) (input : Value) (R : Res) : Prop :=
  ∃ nm rid term,
    spanEvents n R.evs = [Event.on_chain_start n nm input rid, term] ∧
    ((∃ out, term = Event.on_chain_end n out) ∨
     (∃ e, term = Event.on_chain_error n e ∧ R.res = .error e)) ∧
    (∀ v, R.res = .ok v → ∃ out, term = Event.on_chain_end n out)

/-- A unit returned by witness function 3: a traced incrementing
callable. -/
def wUnitB : Runnable :=
  .callable (.mk (Option.some 0) Option.none (Option.some "b") [] [] true true false false)

/-- A traced unit whose function (witness index 2) always raises. -/
def wFail : CallableData :=
  .mk (Option.some 2) Option.none (Option.some "boom") [] [] true true false false

/-- The concrete function environment used by the witnesses: 0 increments
an integer, 1 returns the `"config"` keyword argument it received, 2
raises, 3 returns the unit `wUnitB`, 4 returns its keyword arguments as a
dict, 6 returns the failing unit `wFail`, async 5 returns 42. -/
def wEnv : Env where
  senv := fun i input kws =>
    match i with
    | 0 => match input with
           | .int m => .ok (.int (m + 1))
           | _ => .ok Value.none
    | 1 => .ok ((dictLookup kws "config").getD (.int 99))
    | 2 => .error (.userError 7)
    | 3 => .ok (.runnable wUnitB)
    | 4 => .ok (.dict kws)
    | 6 => .ok (.runnable (.callable wFail))
    | _ => .ok Value.none
  aenv := fun i _input _kws =>
    match i with
    | 5 => .ok (.int 42)
    | _ => .ok Value.none
  lenv := fun _ v _ => .ok v
  penv := fun _ v _ => .ok v

/-- An untraced incrementing step. -/
def wStep : Runnable :=
  .callable (.mk (Option.some 0) Option.none (Option.some "step") [] [] false false false false)

/-- A unit with fixed tags whose function accepts and returns the injected
context. -/
def c3data : CallableData :=
  .mk (Option.some 1) Option.none (Option.some "c3") ["t"] [] false false true false

/-- A traced unit with no synchronous and no asynchronous function. -/
def wNoFunc : CallableData :=
  .mk Option.none Option.none (Option.some "nf") [] [] true true false false

/-- A unit with only an asynchronous function. -/
def wAsyncOnly : CallableData :=
  .mk Option.none (Option.some (.native 5)) (Option.some "ao") [] [] false false false false

/-- A unit with only a synchronous function. -/
def wSyncOnly : CallableData :=
  .mk (Option.some 0) Option.none (Option.some "so") [] [] false false false false

/-- A sync-only unit with a fixed keyword argument, whose function echoes
the keyword arguments it receives. -/
def wFix : CallableData :=
  .mk (Option.some 4) Option.none (Option.some "fx") [] [("k", Value.int 5)] false false false false

/-- A traced recursing unit whose function returns `wUnitB`. -/
def wRec : CallableData :=
  .mk (Option.some 3) Option.none (Option.some "rec") [] [] true true false false

/-- A traced recursing unit whose function returns the failing unit
`wFail`. -/
def wRecFail : CallableData :=
  .mk (Option.some 6) Option.none (Option.some "rf") [] [] true true false false

/-- A traced unit with only an asynchronous function. -/
def wAsyncTraced : CallableData :=
  .mk Option.none (Option.some (.native 5)) (Option.some "at") [] [] true false false false


theorem dictMerge_nil (a : Kwargs) : dictMerge a [] = a := by
  simp [dictMerge, dictLookup]

theorem dictLookup_map_set (d : Kwargs) (k : String) (v : Value) :
    dictLookup (d.map (fun kv => if kv.1 == k then (k, v) else kv)) k =
      if (dictLookup d k).isSome then Option.some v else Option.none := by
  induction d with
  | nil => simp [dictLookup]
  | cons kv t ih =>
    by_cases hk : kv.1 = k
    · unfold dictLookup
      simp only [List.map_cons, hk]
      rw [List.find?_cons_of_pos _ (by simp), List.find?_cons_of_pos _ (by simp [hk])]
      simp
    · have hk' : (kv.1 == k) = false := by simp [hk]
      unfold dictLookup at ih ⊢
      simp only [List.map_cons, hk', Bool.false_eq_true, if_false]
      rw [List.find?_cons_of_neg _ (by simp [hk]), List.find?_cons_of_neg _ (by simp [hk])]
      exact ih

theorem dictLookup_dictSet (d : Kwargs) (k : String) (v : Value) :
    dictLookup (dictSet d k v) k = Option.some v := by
  unfold dictSet
  by_cases h : (dictLookup d k).isSome
  · simp only [h, if_true]
    rw [dictLookup_map_set]
    simp [h]
  · simp only [h, Bool.false_eq_true, if_false]
    unfold dictLookup at h ⊢
    rw [List.find?_append]
    rcases hf : List.find? (fun kv => kv.1 == k) d with _ | kv
    · rw [hf]; simp [List.find?]
    · rw [hf] at h; simp at h

theorem evsBounded_nil (lo hi : Nat) : evsBounded lo hi [] := by
  intro e he; cases he

theorem evsBounded_mono {lo hi lo' hi' : Nat} {evs : List Event}
    (h1 : lo' ≤ lo) (h2 : hi ≤ hi') (h : evsBounded lo hi evs) :
    evsBounded lo' hi' evs := by
  intro e he s hs
  have := h e he s hs
  omega

theorem evsBounded_append {lo hi : Nat} {a b : List Event}
    (ha : evsBounded lo hi a) (hb : evsBounded lo hi b) :
    evsBounded lo hi (a ++ b) := by
  intro e he s hs
  rcases List.mem_append.mp he with h | h
  · exact ha e h s hs
  · exact hb e h s hs

theorem evsBounded_cons {lo hi : Nat} {e : Event} {evs : List Event}
    (he : ∀ s, Event.sid e = Option.some s → lo ≤ s ∧ s < hi)
    (h : evsBounded lo hi evs) : evsBounded lo hi (e :: evs) := by
  intro e' he' s hs
  rcases List.mem_cons.mp he' with h' | h'
  · subst h'; exact he s hs
  · exact h e' h' s hs

theorem spanEvents_append (sid : Nat) (a b : List Event) :
    spanEvents sid (a ++ b) = spanEvents sid a ++ spanEvents sid b := by
  simp [spanEvents]

theorem spanEvents_nil_of_bounded {lo hi : Nat} {evs : List Event}
    (h : evsBounded lo hi evs) {sid : Nat} (hs : sid < lo) :
    spanEvents sid evs = [] := by
  induction evs with
  | nil => rfl
  | cons e t ih =>
    have hhead : (Event.sid e == Option.some sid) = false := by
      cases he : Event.sid e with
      | none => rfl
      | some s =>
        have hb := (h e (by simp) s he).1
        have : s ≠ sid := by omega
        simp [this]
    have ht : evsBounded lo hi t := by
      intro e' he' s hs'
      exact h e' (by simp [he']) s hs'
    simp [spanEvents, List.filter_cons, hhead] at ih ⊢
    exact ih ht

theorem maybeRecurse_fresh (rec : Runnable → Value → Option Config → Kwargs → Nat → Res)
    (hrec : FreshSpec rec) (recurse : Bool) (ret input : Value)
    (config : Option Config) (evs0 : List Event) {lo n : Nat}
    (hlo : lo ≤ n) (h0 : evsBounded lo n evs0) :
    lo ≤ (maybeRecurse rec recurse ret input config evs0 n).ctr ∧
    evsBounded lo (maybeRecurse rec recurse ret input config evs0 n).ctr
      (maybeRecurse rec recurse ret input config evs0 n).evs := by
  unfold maybeRecurse
  split
  · split
    · rename_i r2 _
      have h := hrec r2 input config [] n
      exact ⟨le_trans hlo h.1,
        evsBounded_append (evsBounded_mono (le_refl lo) h.1 h0)
          (evsBounded_mono hlo (le_refl _) h.2)⟩
    · exact ⟨hlo, h0⟩
  · exact ⟨hlo, h0⟩

theorem invokeCallable_fresh (E : Env)
    (rec : Runnable → Value → Option Config → Kwargs → Nat → Res)
    (hrec : FreshSpec rec) (d : CallableData) (input : Value)
    (cfg : Option Config) (kw : Kwargs) (n : Nat) :
    n ≤ (invokeCallable E rec d input cfg kw n).ctr ∧
    evsBounded n ((invokeCallable E rec d input cfg kw n).ctr)
      ((invokeCallable E rec d input cfg kw n).evs) := by
  unfold invokeCallable
  cases hf : d.func with
  | none => exact ⟨le_refl n, evsBounded_nil _ _⟩
  | some f =>
    cases ht : d.trace
    · simp only [Bool.false_eq_true, if_false]
      cases hs : E.senv f input (buildCallKwargs d.kwargs kw d.funcAcceptsConfig cfg) with
      | error e =>
        dsimp only
        refine ⟨le_refl n, ?_⟩
        intro ev hev s hsid
        simp only [List.mem_singleton] at hev
        subst hev
        simp [Event.sid] at hsid
      | ok ret =>
        dsimp only
        refine maybeRecurse_fresh rec hrec _ ret input _ _ (le_refl n) ?_
        intro ev hev s hsid
        simp only [List.mem_singleton] at hev
        subst hev
        simp [Event.sid] at hsid
    · simp only [if_true]
      cases hs : E.senv f input (buildCallKwargs d.kwargs kw d.funcAcceptsConfig cfg) with
      | error e =>
        dsimp only
        refine ⟨Nat.le_succ n, ?_⟩
        intro ev hev s hsid
        rcases List.mem_cons.mp hev with h | h
        · subst h; simp [Event.sid] at hsid; omega
        rcases List.mem_cons.mp h with h2 | h2
        · subst h2; simp [Event.sid] at hsid
        rcases List.mem_cons.mp h2 with h3 | h3
        · subst h3; simp [Event.sid] at hsid; omega
        · cases h3
      | ok ret =>
        dsimp only
        refine maybeRecurse_fresh rec hrec _ ret input _ _ (Nat.le_succ n) ?_
        intro ev hev s hsid
        rcases List.mem_cons.mp hev with h | h
        · subst h; simp [Event.sid] at hsid; omega
        rcases List.mem_cons.mp h with h2 | h2
        · subst h2; simp [Event.sid] at hsid
        rcases List.mem_cons.mp h2 with h3 | h3
        · subst h3; simp [Event.sid] at hsid; omega
        · cases h3

theorem ainvokeCallable_fresh (E : Env)
    (rec : Runnable → Value → Option Config → Kwargs → Nat → Res)
    (hrec : FreshSpec rec) (d : CallableData) (ar : AFuncRef) (input : Value)
    (cfg : Option Config) (kw : Kwargs) (n : Nat) :
    n ≤ (ainvokeCallable E rec d ar input cfg kw n).ctr ∧
    evsBounded n ((ainvokeCallable E rec d ar input cfg kw n).ctr)
      ((ainvokeCallable E rec d ar input cfg kw n).evs) := by
  unfold ainvokeCallable
  cases ht : d.trace
  · simp only [Bool.false_eq_true, if_false]
    cases hs : (match ar with
        | .native j => E.aenv j input (buildCallKwargs d.kwargs kw d.afuncAcceptsConfig cfg)
        | .wrapped j => E.senv j input (buildCallKwargs d.kwargs kw d.afuncAcceptsConfig cfg)) with
    | error e =>
      dsimp only
      refine ⟨le_refl n, ?_⟩
      intro ev hev s hsid
      simp only [List.mem_singleton] at hev
      subst hev
      simp [Event.sid] at hsid
    | ok ret =>
      dsimp only
      refine maybeRecurse_fresh rec hrec _ ret input _ _ (le_refl n) ?_
      intro ev hev s hsid
      simp only [List.mem_singleton] at hev
      subst hev
      simp [Event.sid] at hsid
  · simp only [if_true]
    cases hs : (match ar with
        | .native j => E.aenv j input (buildCallKwargs d.kwargs kw d.afuncAcceptsConfig cfg)
        | .wrapped j => E.senv j input (buildCallKwargs d.kwargs kw d.afuncAcceptsConfig cfg)) with
    | error e =>
      dsimp only
      refine ⟨Nat.le_succ n, ?_⟩
      intro ev hev s hsid
      rcases List.mem_cons.mp hev with h | h
      · subst h; simp [Event.sid] at hsid; omega
      rcases List.mem_cons.mp h with h2 | h2
      · subst h2; simp [Event.sid] at hsid
      rcases List.mem_cons.mp h2 with h3 | h3
      · subst h3; simp [Event.sid] at hsid; omega
      · cases h3
    | ok ret =>
      dsimp only
      refine maybeRecurse_fresh rec hrec _ ret input _ _ (Nat.le_succ n) ?_
      intro ev hev s hsid
      rcases List.mem_cons.mp hev with h | h
      · subst h; simp [Event.sid] at hsid; omega
      rcases List.mem_cons.mp h with h2 | h2
      · subst h2; simp [Event.sid] at hsid
      rcases List.mem_cons.mp h2 with h3 | h3
      · subst h3; simp [Event.sid] at hsid; omega
      · cases h3


theorem invokeSteps_fresh (f : Runnable → Value → Option Config → Kwargs → Nat → Res)
    (hf : FreshSpec f) (sid : Nat) :
    ∀ (steps : List Runnable) (i : Nat) (acc : Value) (cfg : Config)
      (kw : Kwargs) (n : Nat),
      n ≤ (invokeSteps f sid i steps acc cfg kw n).ctr ∧
      evsBounded n ((invokeSteps f sid i steps acc cfg kw n).ctr)
        ((invokeSteps f sid i steps acc cfg kw n).evs) := by
  intro steps
  induction steps with
  | nil => intro i acc cfg kw n; exact ⟨le_refl n, evsBounded_nil _ _⟩
  | cons s rest ih =>
    intro i acc cfg kw n
    unfold invokeSteps
    dsimp only
    have h1 := hf s acc
      (Option.some (patch_config cfg ⟨sid, Option.some ("seq:step:" ++ toString (i + 1))⟩))
      (if i = 0 then kw else []) n
    cases hres : (f s acc
      (Option.some (patch_config cfg ⟨sid, Option.some ("seq:step:" ++ toString (i + 1))⟩))
      (if i = 0 then kw else []) n).res with
    | error e => exact ⟨h1.1, h1.2⟩
    | ok v =>
      dsimp only
      have h2 := ih (i + 1) v
        (patch_config cfg ⟨sid, Option.some ("seq:step:" ++ toString (i + 1))⟩) kw
        ((f s acc (Option.some (patch_config cfg ⟨sid, Option.some ("seq:step:" ++ toString (i + 1))⟩))
          (if i = 0 then kw else []) n).ctr)
      exact ⟨le_trans h1.1 h2.1,
        evsBounded_append (evsBounded_mono (le_refl n) h2.1 h1.2)
          (evsBounded_mono h1.1 (le_refl _) h2.2)⟩

theorem seqClose_fresh (startEv : Event) (inner : Res) (n : Nat)
    (hst : ∀ s, startEv.sid = Option.some s → s = n)
    (h1 : n + 1 ≤ inner.ctr) (h2 : evsBounded (n + 1) inner.ctr inner.evs) :
    n ≤ (seqClose n startEv inner).ctr ∧
    evsBounded n ((seqClose n startEv inner).ctr) ((seqClose n startEv inner).evs) := by
  unfold seqClose
  cases hres : inner.res with
  | error e =>
    dsimp only
    refine ⟨le_trans (Nat.le_succ n) h1, ?_⟩
    refine evsBounded_cons (fun s hs => ?_) (evsBounded_append
      (evsBounded_mono (Nat.le_succ n) (le_refl _) h2) (fun ev hev s hs => ?_))
    · have := hst s hs
      omega
    · simp only [List.mem_singleton] at hev
      subst hev
      simp [Event.sid] at hs
      omega
  | ok v =>
    dsimp only
    refine ⟨le_trans (Nat.le_succ n) h1, ?_⟩
    refine evsBounded_cons (fun s hs => ?_) (evsBounded_append
      (evsBounded_mono (Nat.le_succ n) (le_refl _) h2) (fun ev hev s hs => ?_))
    · have := hst s hs
      omega
    · simp only [List.mem_singleton] at hev
      subst hev
      simp [Event.sid] at hs
      omega

theorem invokeSeq_fresh (step : Runnable → Value → Option Config → Kwargs → Nat → Res)
    (hstep : FreshSpec step) (steps : List Runnable) (nm : Option String)
    (input : Value) (cfg : Option Config) (kw : Kwargs) (n : Nat) :
    n ≤ (invokeSeq step steps nm input cfg kw n).ctr ∧
    evsBounded n ((invokeSeq step steps nm input cfg kw n).ctr)
      ((invokeSeq step steps nm input cfg kw n).evs) := by
  unfold invokeSeq
  dsimp only
  exact seqClose_fresh _ _ n (fun s hs => by simp [Event.sid] at hs; omega)
    (invokeSteps_fresh step hstep n steps 0 input _ kw (n + 1)).1
    (invokeSteps_fresh step hstep n steps 0 input _ kw (n + 1)).2

theorem invoke_fresh (E : Env) : ∀ fuel, FreshSpec (invoke E fuel) := by
  intro fuel
  induction fuel with
  | zero => intro r input cfg kw n; exact ⟨le_refl n, evsBounded_nil _ _⟩
  | succ fuel ih =>
    intro r input cfg kw n
    cases r with
    | callable d => exact invokeCallable_fresh E _ ih d input cfg kw n
    | seq steps nm => exact invokeSeq_fresh _ ih steps nm input cfg kw n
    | extSeq f m l nm => exact invokeSeq_fresh _ ih (f :: (m ++ [l])) nm input cfg kw n
    | lam i nm => exact ⟨le_refl n, evsBounded_nil _ _⟩
    | parallel k => exact ⟨le_refl n, evsBounded_nil _ _⟩

theorem ainvoke_fresh (E : Env) : ∀ fuel, FreshSpec (ainvoke E fuel) := by
  intro fuel
  induction fuel with
  | zero => intro r input cfg kw n; exact ⟨le_refl n, evsBounded_nil _ _⟩
  | succ fuel ih =>
    intro r input cfg kw n
    cases r with
    | callable d =>
      have hsplit : ainvoke E (fuel + 1) (.callable d) input cfg kw n =
          (match d.afunc with
           | Option.none => invoke E (fuel + 1) (.callable d) input cfg [] n
           | Option.some ar => ainvokeCallable E (ainvoke E fuel) d ar input cfg kw n) := rfl
      cases ha : d.afunc with
      | none =>
        rw [hsplit, ha]
        exact invoke_fresh E (fuel + 1) (.callable d) input cfg [] n
      | some ar =>
        rw [hsplit, ha]
        exact ainvokeCallable_fresh E _ ih d ar input cfg kw n
    | seq steps nm => exact invokeSeq_fresh _ ih steps nm input cfg kw n
    | extSeq f m l nm => exact invokeSeq_fresh _ ih (f :: (m ++ [l])) nm input cfg kw n
    | lam i nm => exact ⟨le_refl n, evsBounded_nil _ _⟩
    | parallel k => exact ⟨le_refl n, evsBounded_nil _ _⟩


theorem spanEvents_cons_self {sid : Nat} {e : Event} (t : List Event)
    (h : Event.sid e = Option.some sid) :
    spanEvents sid (e :: t) = e :: spanEvents sid t := by
  simp [spanEvents, List.filter_cons, h]

theorem spanEvents_cons_other {sid : Nat} {e : Event} (t : List Event)
    (h : (Event.sid e == Option.some sid) = false) :
    spanEvents sid (e :: t) = spanEvents sid t := by
  simp [spanEvents, List.filter_cons, h]

theorem spanEvents_frame (n : Nat) (nm : Option String) (rid : Option Nat)
    (inp : Value) (kws : Kwargs) (x : Value) (rest : List Event)
    (hrest : spanEvents n rest = []) :
    spanEvents n (Event.on_chain_start n nm inp rid :: Event.funcCall kws ::
      Event.on_chain_end n x :: rest) =
    [Event.on_chain_start n nm inp rid, Event.on_chain_end n x] := by
  have hs : Event.sid (Event.on_chain_start n nm inp rid) = Option.some n := rfl
  have hf : (Event.sid (Event.funcCall kws) == Option.some n) = false := rfl
  have he : Event.sid (Event.on_chain_end n x) = Option.some n := rfl
  rw [spanEvents_cons_self _ hs, spanEvents_cons_other _ hf,
    spanEvents_cons_self _ he, hrest]

theorem spanEvents_errFrame (n : Nat) (nm : Option String) (rid : Option Nat)
    (inp : Value) (kws : Kwargs) (e : PyErr) :
    spanEvents n [Event.on_chain_start n nm inp rid, Event.funcCall kws,
      Event.on_chain_error n e] =
    [Event.on_chain_start n nm inp rid, Event.on_chain_error n e] := by
  have hs : Event.sid (Event.on_chain_start n nm inp rid) = Option.some n := rfl
  have hf : (Event.sid (Event.funcCall kws) == Option.some n) = false := rfl
  have he : Event.sid (Event.on_chain_error n e) = Option.some n := rfl
  rw [spanEvents_cons_self _ hs, spanEvents_cons_other _ hf,
    spanEvents_cons_self _ he]
  rfl

theorem maybeRecurse_okSpan (rec : Runnable → Value → Option Config → Kwargs → Nat → Res)
    (hrec : FreshSpec rec) (recurse : Bool) (ret input : Value)
    (config : Option Config) (nm : Option String) (rid : Option Nat)
    (kws : Kwargs) (n : Nat) (inp : Value) :
    okSpan n inp (maybeRecurse rec recurse ret input config
      [Event.on_chain_start n nm inp rid, .funcCall kws, .on_chain_end n ret]
      (n + 1)) := by
  unfold maybeRecurse
  split
  · rename_i r2
    split
    · dsimp only
      refine ⟨nm, rid, Event.on_chain_end n (.runnable r2), ?_, Or.inl ⟨_, rfl⟩,
        fun v _ => ⟨_, rfl⟩⟩
      simp only [List.cons_append, List.nil_append]
      exact spanEvents_frame n nm rid inp kws (.runnable r2) _
        (spanEvents_nil_of_bounded (hrec r2 input config [] (n + 1)).2
          (Nat.lt_succ_self n))
    · refine ⟨nm, rid, Event.on_chain_end n (.runnable r2), ?_, Or.inl ⟨_, rfl⟩,
        fun v _ => ⟨_, rfl⟩⟩
      exact spanEvents_frame n nm rid inp kws (.runnable r2) [] rfl
  · rename_i ret2 hne
    refine ⟨nm, rid, Event.on_chain_end n ret, ?_, Or.inl ⟨_, rfl⟩,
      fun v _ => ⟨_, rfl⟩⟩
    exact spanEvents_frame n nm rid inp kws ret [] rfl

theorem invokeCallable_span (E : Env)
    (rec : Runnable → Value → Option Config → Kwargs → Nat → Res)
    (hrec : FreshSpec rec) (d : CallableData) (f : Nat) (input : Value)
    (cfg : Option Config) (kw : Kwargs) (n : Nat)
    (ht : d.trace = true) (hf : d.func = Option.some f) :
    okSpan n input (invokeCallable E rec d input cfg kw n) := by
  unfold invokeCallable
  rw [hf, ht]
  simp only [if_true]
  cases hs : E.senv f input (buildCallKwargs d.kwargs kw d.funcAcceptsConfig cfg) with
  | error e =>
    dsimp only
    refine ⟨pyOrStr (resolvedContext d cfg).runName
        (Option.some (Runnable.get_name (.callable d))),
      (resolvedContext d cfg).runId, Event.on_chain_error n e,
      ?_, Or.inr ⟨e, rfl, rfl⟩, ?_⟩
    · exact spanEvents_errFrame n _ _ input _ e
    · intro v hv; simp at hv
  | ok ret =>
    exact maybeRecurse_okSpan rec hrec d.recurse ret input _ _ _ _ n input

theorem ainvokeCallable_span (E : Env)
    (rec : Runnable → Value → Option Config → Kwargs → Nat → Res)
    (hrec : FreshSpec rec) (d : CallableData) (ar : AFuncRef) (input : Value)
    (cfg : Option Config) (kw : Kwargs) (n : Nat)
    (ht : d.trace = true) :
    okSpan n input (ainvokeCallable E rec d ar input cfg kw n) := by
  unfold ainvokeCallable
  rw [ht]
  simp only [if_true]
  cases hs : (match ar with
      | .native j => E.aenv j input (buildCallKwargs d.kwargs kw d.afuncAcceptsConfig cfg)
      | .wrapped j => E.senv j input (buildCallKwargs d.kwargs kw d.afuncAcceptsConfig cfg)) with
  | error e =>
    dsimp only
    refine ⟨pyOrStr (resolvedContext d cfg).runName d.name,
      (resolvedContext d cfg).runId, Event.on_chain_error n e,
      ?_, Or.inr ⟨e, rfl, rfl⟩, ?_⟩
    · exact spanEvents_errFrame n _ _ input _ e
    · intro v hv; simp at hv
  | ok ret =>
    exact maybeRecurse_okSpan rec hrec d.recurse ret input _ _ _ _ n input

theorem seqClose_okSpan (nm : Option String) (rid : Option Nat) (inp : Value)
    (inner : Res) (n : Nat)
    (h2 : evsBounded (n + 1) inner.ctr inner.evs) :
    okSpan n inp (seqClose n (Event.on_chain_start n nm inp rid) inner) := by
  have hs : Event.sid (Event.on_chain_start n nm inp rid) = Option.some n := rfl
  have hinner : spanEvents n inner.evs = [] :=
    spanEvents_nil_of_bounded h2 (Nat.lt_succ_self n)
  unfold seqClose
  cases hres : inner.res with
  | error e =>
    dsimp only
    refine ⟨nm, rid, Event.on_chain_error n e, ?_, Or.inr ⟨e, rfl, rfl⟩, ?_⟩
    · show spanEvents n (Event.on_chain_start n nm inp rid ::
        (inner.evs ++ [Event.on_chain_error n e])) = _
      have he : Event.sid (Event.on_chain_error n e) = Option.some n := rfl
      rw [spanEvents_cons_self _ hs, spanEvents_append, hinner,
        spanEvents_cons_self _ he]
      rfl
    · intro v hv; simp at hv
  | ok v =>
    dsimp only
    refine ⟨nm, rid, Event.on_chain_end n v, ?_, Or.inl ⟨v, rfl⟩,
      fun v2 _ => ⟨v, rfl⟩⟩
    show spanEvents n (Event.on_chain_start n nm inp rid ::
      (inner.evs ++ [Event.on_chain_end n v])) = _
    have he : Event.sid (Event.on_chain_end n v) = Option.some n := rfl
    rw [spanEvents_cons_self _ hs, spanEvents_append, hinner,
      spanEvents_cons_self _ he]
    rfl

theorem invokeSeq_span (step : Runnable → Value → Option Config → Kwargs → Nat → Res)
    (hstep : FreshSpec step) (steps : List Runnable) (nm : Option String)
    (input : Value) (cfg : Option Config) (kw : Kwargs) (n : Nat) :
    okSpan n input (invokeSeq step steps nm input cfg kw n) := by
  unfold invokeSeq
  dsimp only
  exact seqClose_okSpan _ _ input _ n
    (invokeSteps_fresh step hstep n steps 0 input _ kw (n + 1)).2


theorem flattenSteps_cons_atom (r : Runnable) (rest : List PyObj)
    (h : r.isSeqLike = false) :
    flattenSteps (.runnable r :: rest) = (do
      let tl ← flattenSteps rest
      pure (r :: tl)) := by
  cases r with
  | seq ss nm => simp [Runnable.isSeqLike] at h
  | extSeq a m b nm => simp [Runnable.isSeqLike] at h
  | callable d => rfl
  | lam i nm => rfl
  | parallel k => rfl

theorem flattenSteps_cons_seq (ss : List Runnable) (snm : Option String)
    (rest : List PyObj) :
    flattenSteps (.runnable (.seq ss snm) :: rest) = (do
      let tl ← flattenSteps rest
      pure (ss ++ tl)) := rfl

theorem flattenSteps_cons_extSeq (a : Runnable) (m : List Runnable) (b : Runnable)
    (nm : Option String) (rest : List PyObj) :
    flattenSteps (.runnable (.extSeq a m b nm) :: rest) = (do
      let tl ← flattenSteps rest
      pure ((a :: (m ++ [b])) ++ tl)) := rfl

theorem flattenSteps_cons_syncFn (i : Nat) (fn : Option String) (acc : Bool)
    (rest : List PyObj) :
    flattenSteps (.syncFn i fn acc :: rest) = (do
      let tl ← flattenSteps rest
      pure (Runnable.callable (.mk (Option.some i) (Option.some (.wrapped i))
        fn [] [] true true acc acc) :: tl)) := rfl

theorem flattenSteps_cons_asyncFn (i : Nat) (fn : Option String) (acc : Bool)
    (rest : List PyObj) :
    flattenSteps (.asyncFn i fn acc :: rest) = (do
      let tl ← flattenSteps rest
      pure (Runnable.callable (.mk Option.none (Option.some (.native i))
        fn [] [] true true false acc) :: tl)) := rfl

theorem flattenSteps_cons_genFn (i : Nat) (fn : Option String)
    (rest : List PyObj) :
    flattenSteps (.genFn i fn :: rest) = (do
      let tl ← flattenSteps rest
      pure (Runnable.lam i fn :: tl)) := rfl

theorem flattenSteps_cons_dictObj (k : Nat) (rest : List PyObj) :
    flattenSteps (.dictObj k :: rest) = (do
      let tl ← flattenSteps rest
      pure (Runnable.parallel k :: tl)) := rfl

theorem flattenSteps_no_seq_consAux (c : Runnable) (rest : List PyObj)
    (flat : List Runnable) (hc : c.isSeq = false)
    (hrec : ∀ flat2, flattenSteps rest = .ok flat2 → ∀ x ∈ flat2, x.isSeq = false)
    (hf : ((do
      let tl ← flattenSteps rest
      pure (c :: tl)) : Except PyErr (List Runnable)) = .ok flat) :
    ∀ x ∈ flat, x.isSeq = false := by
  cases hrest : flattenSteps rest with
  | error e =>
    rw [hrest] at hf
    have hf2 : (Except.error e : Except PyErr (List Runnable)) = .ok flat := hf
    exact Except.noConfusion hf2
  | ok tl =>
    rw [hrest] at hf
    have hf2 : (Except.ok (c :: tl) : Except PyErr (List Runnable)) = .ok flat := hf
    injection hf2 with hflat
    subst hflat
    intro x hx
    rcases List.mem_cons.mp hx with hm | hm
    · subst hm; exact hc
    · exact hrec tl hrest x hm

theorem flattenSteps_no_seq_spliceAux (cs : List Runnable) (rest : List PyObj)
    (flat : List Runnable) (hcs : ∀ x ∈ cs, x.isSeq = false)
    (hrec : ∀ flat2, flattenSteps rest = .ok flat2 → ∀ x ∈ flat2, x.isSeq = false)
    (hf : ((do
      let tl ← flattenSteps rest
      pure (cs ++ tl)) : Except PyErr (List Runnable)) = .ok flat) :
    ∀ x ∈ flat, x.isSeq = false := by
  cases hrest : flattenSteps rest with
  | error e =>
    rw [hrest] at hf
    have hf2 : (Except.error e : Except PyErr (List Runnable)) = .ok flat := hf
    exact Except.noConfusion hf2
  | ok tl =>
    rw [hrest] at hf
    have hf2 : (Except.ok (cs ++ tl) : Except PyErr (List Runnable)) = .ok flat := hf
    injection hf2 with hflat
    subst hflat
    intro x hx
    rcases List.mem_append.mp hx with hm | hm
    · exact hcs x hm
    · exact hrec tl hrest x hm

theorem flattenSteps_no_seq : ∀ (steps : List PyObj),
    (∀ s ∈ steps, stepOk s = true) →
    ∀ flat, flattenSteps steps = .ok flat → ∀ x ∈ flat, x.isSeq = false := by
  intro steps
  induction steps with
  | nil =>
    intro _ flat hf
    have hf2 : (Except.ok [] : Except PyErr (List Runnable)) = .ok flat := hf
    injection hf2 with hflat
    subst hflat
    intro x hx
    cases hx
  | cons s rest ih =>
    intro hok flat hf
    have hokr : ∀ s2 ∈ rest, stepOk s2 = true :=
      fun s2 hs2 => hok s2 (List.mem_cons_of_mem s hs2)
    have hoks : stepOk s = true := hok s (List.mem_cons_self s rest)
    have hrec := ih hokr
    cases s with
    | runnable r =>
      cases r with
      | seq ss nm =>
        rw [flattenSteps_cons_seq] at hf
        refine flattenSteps_no_seq_spliceAux ss rest flat ?_ hrec hf
        intro x hx
        simp only [stepOk, List.all_eq_true] at hoks
        simpa using hoks x hx
      | extSeq a m b nm =>
        rw [flattenSteps_cons_extSeq] at hf
        refine flattenSteps_no_seq_spliceAux _ rest flat ?_ hrec hf
        intro x hx
        simp only [stepOk, Bool.and_eq_true, List.all_eq_true] at hoks
        rcases List.mem_cons.mp hx with hm | hm
        · subst hm; simpa using hoks.1.1
        · rcases List.mem_append.mp hm with hm2 | hm2
          · simpa using hoks.1.2 x hm2
          · rcases List.mem_singleton.mp hm2 with rfl
            simpa using hoks.2
      | callable d =>
        rw [flattenSteps_cons_atom (Runnable.callable d) rest rfl] at hf
        exact flattenSteps_no_seq_consAux (Runnable.callable d) rest flat rfl hrec hf
      | lam i nm =>
        rw [flattenSteps_cons_atom (Runnable.lam i nm) rest rfl] at hf
        exact flattenSteps_no_seq_consAux (Runnable.lam i nm) rest flat rfl hrec hf
      | parallel k =>
        rw [flattenSteps_cons_atom (Runnable.parallel k) rest rfl] at hf
        exact flattenSteps_no_seq_consAux (Runnable.parallel k) rest flat rfl hrec hf
    | syncFn i fn acc =>
      rw [flattenSteps_cons_syncFn] at hf
      exact flattenSteps_no_seq_consAux (Runnable.callable (.mk (Option.some i)
        (Option.some (.wrapped i)) fn [] [] true true acc acc)) rest flat rfl hrec hf
    | asyncFn i fn acc =>
      rw [flattenSteps_cons_asyncFn] at hf
      exact flattenSteps_no_seq_consAux (Runnable.callable (.mk Option.none
        (Option.some (.native i)) fn [] [] true true false acc)) rest flat rfl hrec hf
    | genFn i fn =>
      rw [flattenSteps_cons_genFn] at hf
      exact flattenSteps_no_seq_consAux (Runnable.lam i fn) rest flat rfl hrec hf
    | dictObj k =>
      rw [flattenSteps_cons_dictObj] at hf
      exact flattenSteps_no_seq_consAux (Runnable.parallel k) rest flat rfl hrec hf
    | other ty =>
      have hf2 : (Except.error (PyErr.typeError
          ("Expected a Runnable, callable or dict." ++
           "Instead got an unsupported type: " ++ ty)) :
          Except PyErr (List Runnable)) = .ok flat := hf
      exact Except.noConfusion hf2

/-- C1 (code evaluated at the failing input): a stream run of a sequence
whose chained iterator yields the chunks 1, 2, 3 yields all three chunks
to the caller in order, but reports the LAST chunk 3 — not the sum 6 — as
the root span's final output, in both `stream` and `astream`.
`add_supported` is initialized `False` (runnable.py:436, 503) and no code
path ever sets it `True`, so the accumulation branch is unreachable and
the final value is always the last chunk. -/
theorem C1_stream_reports_last_chunk :
    RunnableSeq.streamRun [wStep, wStep] Option.none (.int 0) Option.none
      [Value.int 1, Value.int 2, Value.int 3] Option.none 0 =
      ([Value.int 1, Value.int 2, Value.int 3], .ok (),
       [Event.on_chain_start 0 (Option.some "RunnableSeq") (.int 0) Option.none,
        Event.on_chain_end 0 (.int 3)], 1)
    ∧ RunnableSeq.astreamRun [wStep, wStep] Option.none (.int 0) Option.none
      [Value.int 1, Value.int 2, Value.int 3] Option.none 0 =
      ([Value.int 1, Value.int 2, Value.int 3], .ok (),
       [Event.on_chain_start 0 (Option.some "RunnableSeq") (.int 0) Option.none,
        Event.on_chain_end 0 (.int 3)], 1)
    ∧ streamLoop Value.none false [Value.int 1, Value.int 2, Value.int 3] =
        (Value.int 3, false)
    ∧ Value.int 3 ≠ Value.int 6 :=
  ⟨rfl, rfl, rfl, by intro h; injection h with h2; exact absurd h2 (by decide)⟩

/-- C2 (code evaluated at the failing input): appending or prepending a
plain coercible value to a sequence raises `TypeError` instead of
producing the extended sequence, because `__or__` and `__ror__`
(runnable.py:288, 312) call `coerce_to_runnable(other)` without its
required keyword-only `name` and `trace` arguments.  The third conjunct
shows the same value coerces fine when the arguments are passed the way
the constructor passes them (runnable.py:259), so the operand is not at
fault. -/
theorem C2_compose_with_coercible_raises :
    RunnableSeq.or [wStep, wUnitB] (Option.some "s")
        (PyObj.syncFn 9 (Option.some "g") false) =
      .error (.typeError
        "coerce_to_runnable() missing 2 required keyword-only arguments: 'name' and 'trace'")
    ∧ RunnableSeq.ror [wStep, wUnitB] (Option.some "s")
        (PyObj.syncFn 9 (Option.some "g") false) =
      .error (.typeError
        "coerce_to_runnable() missing 2 required keyword-only arguments: 'name' and 'trace'")
    ∧ coerce_to_runnable_call (PyObj.syncFn 9 (Option.some "g") false)
        (Option.some Option.none) (Option.some true) =
      .ok (.callable (.mk (Option.some 9) (Option.some (.wrapped 9))
        (Option.some "g") [] [] true true false false)) :=
  ⟨rfl, rfl, rfl⟩

/-- C9: every attempt to construct a sequence unit that leaves fewer than
2 steps after flattening fails with the TooFewSteps `ValueError` (naming
the step count) and no sequence object is produced. -/
theorem C9_too_few_steps (steps : List PyObj) (nm : Option String)
    (flat : List Runnable) (hf : flattenSteps steps = .ok flat)
    (hlen : flat.length < 2) :
    RunnableSeq.init steps nm = .error (.valueError
      ("RunnableSeq must have at least 2 steps, got " ++ toString flat.length)) := by
  unfold RunnableSeq.init
  rw [hf]
  show (if flat.length < 2 then
      (Except.error (.valueError
        ("RunnableSeq must have at least 2 steps, got " ++ toString flat.length)) :
        Except PyErr Runnable)
    else .ok (.seq flat nm)) = _
  rw [if_pos hlen]

/-- C9 witness: the zero-step and one-step constructions fail with
TooFewSteps. -/
theorem C9_too_few_steps_witness :
    RunnableSeq.init [] Option.none = .error (.valueError
      "RunnableSeq must have at least 2 steps, got 0") :=
  C9_too_few_steps [] Option.none [] rfl (by decide)

/-- C6: a callable unit with no synchronous function fails `invoke` with
the NoSyncFunction `TypeError`, whose message directs the caller to the
async path (it contains "ainvoke"); with an asynchronous function bound,
`ainvoke` on such a unit does not raise that error but runs the async
function; and with no asynchronous function bound, `ainvoke` falls back
to the synchronous `invoke` path instead of failing. -/
theorem C6_missing_sync_function (E : Env) :
    (∀ (d : CallableData) (input : Value) (cfg : Option Config) (kw : Kwargs)
        (fuel n : Nat), d.func = Option.none →
        invoke E (fuel + 1) (.callable d) input cfg kw n =
          ⟨.error (.typeError (noSyncMsg d.name)), [], n⟩)
    ∧ (∀ nm : Option String, ∃ p q : String, noSyncMsg nm = p ++ "ainvoke" ++ q)
    ∧ (∀ (d : CallableData) (j : Nat) (input : Value) (cfg : Option Config)
        (kw : Kwargs) (fuel n : Nat) (v : Value),
        d.afunc = Option.some (.native j) →
        E.aenv j input (buildCallKwargs d.kwargs kw d.afuncAcceptsConfig cfg) = .ok v →
        (∀ r2, v ≠ .runnable r2) →
        (ainvoke E (fuel + 1) (.callable d) input cfg kw n).res = .ok v)
    ∧ (∀ (d : CallableData) (input : Value) (cfg : Option Config) (kw : Kwargs)
        (fuel n : Nat), d.afunc = Option.none →
        ainvoke E (fuel + 1) (.callable d) input cfg kw n =
          invoke E (fuel + 1) (.callable d) input cfg [] n) := by
  refine ⟨?_, ?_, ?_, ?_⟩
  · intro d input cfg kw fuel n h
    show invokeCallable E (invoke E fuel) d input cfg kw n = _
    unfold invokeCallable
    rw [h]
  · intro nm
    refine ⟨"No synchronous function provided to \"" ++ nm.getD "None" ++
      "\"." ++ "\nEither initialize with a synchronous function or invoke" ++
      " via the async API (", ", astream, etc.)", ?_⟩
    have hlit : (" via the async API (ainvoke, astream, etc.)" : String) =
        " via the async API (" ++ "ainvoke" ++ ", astream, etc.)" := rfl
    unfold noSyncMsg
    rw [hlit]
    simp [String.append_assoc]
  · intro d j input cfg kw fuel n v ha haenv hv
    have hsplit : ainvoke E (fuel + 1) (.callable d) input cfg kw n =
        (match d.afunc with
         | Option.none => invoke E (fuel + 1) (.callable d) input cfg [] n
         | Option.some ar => ainvokeCallable E (ainvoke E fuel) d ar input cfg kw n) := rfl
    rw [hsplit, ha]
    unfold ainvokeCallable
    cases ht : d.trace
    · simp only [Bool.false_eq_true, if_false]
      rw [haenv]
      unfold maybeRecurse
      cases v with
      | runnable r2 => exact absurd rfl (hv r2)
      | int m => rfl
      | str s2 => rfl
      | bool b2 => rfl
      | pylist xs => rfl
      | dict es => rfl
      | config c2 => rfl
      | none => rfl
    · simp only [if_true]
      rw [haenv]
      unfold maybeRecurse
      cases v with
      | runnable r2 => exact absurd rfl (hv r2)
      | int m => rfl
      | str s2 => rfl
      | bool b2 => rfl
      | pylist xs => rfl
      | dict es => rfl
      | config c2 => rfl
      | none => rfl
  · intro d input cfg kw fuel n ha
    have hsplit : ainvoke E (fuel + 1) (.callable d) input cfg kw n =
        (match d.afunc with
         | Option.none => invoke E (fuel + 1) (.callable d) input cfg [] n
         | Option.some ar => ainvokeCallable E (ainvoke E fuel) d ar input cfg kw n) := rfl
    rw [hsplit, ha]

/-- C6 witness: the four parts at concrete units — `wNoFunc` (no
functions at all), `wAsyncOnly` (async only, `ainvoke` returns 42),
`wSyncOnly` (sync only, `ainvoke` falls back). -/
theorem C6_missing_sync_function_witness :
    invoke wEnv 1 (.callable wNoFunc) (.int 0) Option.none [] 0 =
      ⟨.error (.typeError (noSyncMsg (Option.some "nf"))), [], 0⟩
    ∧ (∃ p q : String, noSyncMsg (Option.some "nf") = p ++ "ainvoke" ++ q)
    ∧ (ainvoke wEnv 1 (.callable wAsyncOnly) (.int 0) Option.none [] 0).res =
        .ok (.int 42)
    ∧ ainvoke wEnv 1 (.callable wSyncOnly) (.int 0) Option.none
        [("x", Value.int 1)] 0 =
      invoke wEnv 1 (.callable wSyncOnly) (.int 0) Option.none [] 0 :=
  ⟨(C6_missing_sync_function wEnv).1 wNoFunc (.int 0) Option.none [] 0 0 rfl,
   (C6_missing_sync_function wEnv).2.1 (Option.some "nf"),
   (C6_missing_sync_function wEnv).2.2.1 wAsyncOnly 5 (.int 0) Option.none [] 0 0
     (.int 42) rfl rfl (fun _ h => nomatch h),
   (C6_missing_sync_function wEnv).2.2.2 wSyncOnly (.int 0) Option.none
     [("x", Value.int 1)] 0 0 rfl⟩

/-- C10: when no asynchronous function is bound, `ainvoke` falls back to
`self.invoke(input, config)` without forwarding the call-site keyword
arguments (runnable.py:137-138): the run equals an `invoke` with empty
call kwargs, and the wrapped sync function receives exactly the unit's
fixed kwargs, whatever kwargs the `ainvoke` call carried. -/
theorem C10_fallback_drops_kwargs (E : Env) :
    (∀ (d : CallableData) (input : Value) (cfg : Option Config) (kw : Kwargs)
        (fuel n : Nat), d.afunc = Option.none →
        ainvoke E fuel (.callable d) input cfg kw n =
          invoke E fuel (.callable d) input cfg [] n)
    ∧ (∀ (d : CallableData) (f : Nat) (input : Value) (cfg : Option Config)
        (kw : Kwargs) (fuel n : Nat) (v : Value),
        d.afunc = Option.none → d.func = Option.some f → d.trace = false →
        d.funcAcceptsConfig = false →
        E.senv f input d.kwargs = .ok v → (∀ r2, v ≠ .runnable r2) →
        ainvoke E (fuel + 1) (.callable d) input cfg kw n =
          ⟨.ok v, [.funcCall d.kwargs], n⟩) := by
  constructor
  · intro d input cfg kw fuel n ha
    cases fuel with
    | zero => rfl
    | succ fuel =>
      have hsplit : ainvoke E (fuel + 1) (.callable d) input cfg kw n =
          (match d.afunc with
           | Option.none => invoke E (fuel + 1) (.callable d) input cfg [] n
           | Option.some ar => ainvokeCallable E (ainvoke E fuel) d ar input cfg kw n) := rfl
      rw [hsplit, ha]
  · intro d f input cfg kw fuel n v ha hfun htr hacc hsenv hv
    have hsplit : ainvoke E (fuel + 1) (.callable d) input cfg kw n =
        (match d.afunc with
         | Option.none => invoke E (fuel + 1) (.callable d) input cfg [] n
         | Option.some ar => ainvokeCallable E (ainvoke E fuel) d ar input cfg kw n) := rfl
    rw [hsplit, ha]
    show invokeCallable E (invoke E fuel) d input cfg [] n = _
    unfold invokeCallable
    rw [hfun]
    dsimp only
    rw [htr]
    simp only [Bool.false_eq_true, if_false]
    have hk : buildCallKwargs d.kwargs [] d.funcAcceptsConfig cfg = d.kwargs := by
      unfold buildCallKwargs
      rw [hacc]
      simp only [Bool.false_eq_true, if_false]
      exact dictMerge_nil d.kwargs
    rw [hk, hsenv]
    unfold maybeRecurse
    cases v with
    | runnable r2 => exact absurd rfl (hv r2)
    | int m => rfl
    | str s2 => rfl
    | bool b2 => rfl
    | pylist xs => rfl
    | dict es => rfl
    | config c2 => rfl
    | none => rfl

/-- C10 witness: `wFix` has fixed kwargs `{"k": 5}` and echoes the kwargs
it receives; driving it through `ainvoke` with an extra call-site kwarg
returns only the fixed kwargs. -/
theorem C10_fallback_drops_kwargs_witness :
    ainvoke wEnv 1 (.callable wFix) Value.none Option.none
      [("extra", Value.int 9)] 0 =
      ⟨.ok (.dict [("k", Value.int 5)]), [.funcCall [("k", Value.int 5)]], 0⟩ :=
  (C10_fallback_drops_kwargs wEnv).2 wFix 4 Value.none Option.none
    [("extra", Value.int 9)] 0 0 (.dict [("k", Value.int 5)])
    rfl rfl rfl rfl rfl (fun _ h => nomatch h)

/-- C3 counterexample: a unit with fixed tags `["t"]` whose sync function
accepts and returns the injected context, invoked with no caller context.
The function observes the injected `"config"` value to be the raw caller
context `None` — not the resolved effective context, which carries the
unit's tags — because runnable.py:104-105 injects `config` into the
kwargs before line 106 merges `self.config` into it. -/
theorem C3_injects_caller_context_counterexample :
    (invoke wEnv 1 (.callable c3data) (.int 7) Option.none [] 0).res =
      .ok (.config Option.none)
    ∧ resolvedContext c3data Option.none = { tags := Option.some ["t"] }
    ∧ Value.config Option.none ≠
        Value.config (Option.some (resolvedContext c3data Option.none)) :=
  ⟨rfl, rfl, by intro h; injection h with h2; exact absurd h2 (by simp)⟩

/-- C3 (amended): the context injected as the `"config"` keyword argument
is the caller-supplied context exactly as passed — before the unit's
fixed tags are merged; the resolved effective context
(`resolvedContext`, computed at runnable.py:106 after the injection) is
used for the span and the recursion, not for the injection.  Every
invocation calls the function with `buildCallKwargs`, whose `"config"`
entry is the caller's context. -/
theorem C3_injects_caller_context (E : Env) (d : CallableData) (f : Nat)
    (input : Value) (cfg : Option Config) (kw : Kwargs) (fuel n : Nat)
    (hf : d.func = Option.some f) (hacc : d.funcAcceptsConfig = true) :
    dictLookup (buildCallKwargs d.kwargs kw d.funcAcceptsConfig cfg) "config" =
      Option.some (.config cfg)
    ∧ ∃ pre rest, (invoke E (fuel + 1) (.callable d) input cfg kw n).evs =
        pre ++ Event.funcCall (buildCallKwargs d.kwargs kw d.funcAcceptsConfig cfg)
          :: rest
        ∧ ((d.trace = true ∧ ∃ s, pre = [s]) ∨ (d.trace = false ∧ pre = [])) := by
  constructor
  · unfold buildCallKwargs
    rw [hacc]
    simp only [if_true]
    exact dictLookup_dictSet _ _ _
  · show ∃ pre rest, (invokeCallable E (invoke E fuel) d input cfg kw n).evs = _ ∧ _
    unfold invokeCallable
    rw [hf]
    dsimp only
    cases ht : d.trace
    · rw [if_neg (by decide : ¬(false = true))]
      cases hs : E.senv f input (buildCallKwargs d.kwargs kw d.funcAcceptsConfig cfg) with
      | error e => exact ⟨[], [], rfl, Or.inr ⟨rfl, rfl⟩⟩
      | ok ret =>
        unfold maybeRecurse
        cases ret with
        | runnable r2 =>
          dsimp only
          cases hr : d.recurse
          · rw [if_neg (by decide : ¬(false = true))]
            exact ⟨[], [], rfl, Or.inr ⟨rfl, rfl⟩⟩
          · rw [if_pos (by decide : (true = true))]
            exact ⟨[], (invoke E fuel r2 input
              (Option.some (resolvedContext d cfg)) [] n).evs, rfl, Or.inr ⟨rfl, rfl⟩⟩
        | int m => exact ⟨[], [], rfl, Or.inr ⟨rfl, rfl⟩⟩
        | str s2 => exact ⟨[], [], rfl, Or.inr ⟨rfl, rfl⟩⟩
        | bool b2 => exact ⟨[], [], rfl, Or.inr ⟨rfl, rfl⟩⟩
        | pylist xs => exact ⟨[], [], rfl, Or.inr ⟨rfl, rfl⟩⟩
        | dict es => exact ⟨[], [], rfl, Or.inr ⟨rfl, rfl⟩⟩
        | config c2 => exact ⟨[], [], rfl, Or.inr ⟨rfl, rfl⟩⟩
        | none => exact ⟨[], [], rfl, Or.inr ⟨rfl, rfl⟩⟩
    · rw [if_pos (by decide : (true = true))]
      cases hs : E.senv f input (buildCallKwargs d.kwargs kw d.funcAcceptsConfig cfg) with
      | error e =>
        exact ⟨[Event.on_chain_start n
          (pyOrStr (resolvedContext d cfg).runName
            (Option.some (Runnable.get_name (.callable d))))
          input (resolvedContext d cfg).runId],
          [Event.on_chain_error n e], rfl, Or.inl ⟨rfl, _, rfl⟩⟩
      | ok ret =>
        unfold maybeRecurse
        cases ret with
        | runnable r2 =>
          dsimp only
          cases hr : d.recurse
          · rw [if_neg (by decide : ¬(false = true))]
            exact ⟨[Event.on_chain_start n
              (pyOrStr (resolvedContext d cfg).runName
                (Option.some (Runnable.get_name (.callable d))))
              input (resolvedContext d cfg).runId],
              [Event.on_chain_end n (.runnable r2)], rfl, Or.inl ⟨rfl, _, rfl⟩⟩
          · rw [if_pos (by decide : (true = true))]
            exact ⟨[Event.on_chain_start n
              (pyOrStr (resolvedContext d cfg).runName
                (Option.some (Runnable.get_name (.callable d))))
              input (resolvedContext d cfg).runId],
              Event.on_chain_end n (.runnable r2) :: (invoke E fuel r2 input
                (Option.some { resolvedContext d cfg with runId := Option.none })
                [] (n + 1)).evs,
              rfl, Or.inl ⟨rfl, _, rfl⟩⟩
        | int m =>
          exact ⟨[Event.on_chain_start n
            (pyOrStr (resolvedContext d cfg).runName
              (Option.some (Runnable.get_name (.callable d))))
            input (resolvedContext d cfg).runId],
            [Event.on_chain_end n (.int m)], rfl, Or.inl ⟨rfl, _, rfl⟩⟩
        | str s2 =>
          exact ⟨[Event.on_chain_start n
            (pyOrStr (resolvedContext d cfg).runName
              (Option.some (Runnable.get_name (.callable d))))
            input (resolvedContext d cfg).runId],
            [Event.on_chain_end n (.str s2)], rfl, Or.inl ⟨rfl, _, rfl⟩⟩
        | bool b2 =>
          exact ⟨[Event.on_chain_start n
            (pyOrStr (resolvedContext d cfg).runName
              (Option.some (Runnable.get_name (.callable d))))
            input (resolvedContext d cfg).runId],
            [Event.on_chain_end n (.bool b2)], rfl, Or.inl ⟨rfl, _, rfl⟩⟩
        | pylist xs =>
          exact ⟨[Event.on_chain_start n
            (pyOrStr (resolvedContext d cfg).runName
              (Option.some (Runnable.get_name (.callable d))))
            input (resolvedContext d cfg).runId],
            [Event.on_chain_end n (.pylist xs)], rfl, Or.inl ⟨rfl, _, rfl⟩⟩
        | dict es =>
          exact ⟨[Event.on_chain_start n
            (pyOrStr (resolvedContext d cfg).runName
              (Option.some (Runnable.get_name (.callable d))))
            input (resolvedContext d cfg).runId],
            [Event.on_chain_end n (.dict es)], rfl, Or.inl ⟨rfl, _, rfl⟩⟩
        | config c2 =>
          exact ⟨[Event.on_chain_start n
            (pyOrStr (resolvedContext d cfg).runName
              (Option.some (Runnable.get_name (.callable d))))
            input (resolvedContext d cfg).runId],
            [Event.on_chain_end n (.config c2)], rfl, Or.inl ⟨rfl, _, rfl⟩⟩
        | none =>
          exact ⟨[Event.on_chain_start n
            (pyOrStr (resolvedContext d cfg).runName
              (Option.some (Runnable.get_name (.callable d))))
            input (resolvedContext d cfg).runId],
            [Event.on_chain_end n Value.none], rfl, Or.inl ⟨rfl, _, rfl⟩⟩

/-- C3 witness: the amended statement at the concrete unit `c3data` with
no caller context. -/
theorem C3_injects_caller_context_witness :
    dictLookup (buildCallKwargs c3data.kwargs [] c3data.funcAcceptsConfig
      Option.none) "config" = Option.some (.config Option.none)
    ∧ ∃ pre rest, (invoke wEnv 1 (.callable c3data) (.int 7) Option.none [] 0).evs =
        pre ++ Event.funcCall (buildCallKwargs c3data.kwargs []
          c3data.funcAcceptsConfig Option.none) :: rest
        ∧ ((c3data.trace = true ∧ ∃ s, pre = [s]) ∨
           (c3data.trace = false ∧ pre = [])) :=
  C3_injects_caller_context wEnv c3data 1 (.int 7) Option.none [] 0 0 rfl rfl

/-- C5: composing `Sequence(a,b)` with `Sequence(c,d)` through the append
operator yields one sequence with exactly the 4 steps `[a,b,c,d]` in
order (display name: left's if present, else right's); and every sequence
the constructor produces — the composition operators' sequence branches
all delegate to it — contains no sequence unit as a direct child,
provided the sequence arguments spliced in have themselves no sequence
children (which is exactly the invariant the constructor maintains for
its own outputs). -/
theorem C5_flattening :
    (∀ (a b c d : Runnable) (n1 n2 : Option String),
      a.isSeqLike = false → b.isSeqLike = false → c.isSeqLike = false →
      d.isSeqLike = false →
      RunnableSeq.or [a, b] n1 (.runnable (.seq [c, d] n2)) =
        .ok (.seq [a, b, c, d] (pyOrStr n1 n2)))
    ∧ (∀ (steps : List PyObj) (nm nm2 : Option String) (flat : List Runnable),
      (∀ s ∈ steps, stepOk s = true) →
      RunnableSeq.init steps nm = .ok (.seq flat nm2) →
      ∀ x ∈ flat, x.isSeq = false) := by
  constructor
  · intro a b c d n1 n2 ha hb hc hd
    have step1 : RunnableSeq.or [a, b] n1 (.runnable (.seq [c, d] n2)) =
        RunnableSeq.init [.runnable a, .runnable b, .runnable c, .runnable d]
          (pyOrStr n1 n2) := rfl
    rw [step1]
    have hfl : flattenSteps [.runnable a, .runnable b, .runnable c, .runnable d] =
        .ok [a, b, c, d] := by
      rw [flattenSteps_cons_atom a _ ha, flattenSteps_cons_atom b _ hb,
        flattenSteps_cons_atom c _ hc, flattenSteps_cons_atom d _ hd]
      rfl
    unfold RunnableSeq.init
    rw [hfl]
    show (if ([a, b, c, d] : List Runnable).length < 2 then
        (Except.error (.valueError
          ("RunnableSeq must have at least 2 steps, got " ++
            toString ([a, b, c, d] : List Runnable).length)) : Except PyErr Runnable)
      else .ok (.seq [a, b, c, d] (pyOrStr n1 n2))) = _
    rw [if_neg (by simp)]
  · intro steps nm nm2 flat hok hinit
    cases hfs : flattenSteps steps with
    | error e =>
      unfold RunnableSeq.init at hinit
      rw [hfs] at hinit
      have hinit2 : (Except.error e : Except PyErr Runnable) =
          .ok (.seq flat nm2) := hinit
      exact Except.noConfusion hinit2
    | ok fl =>
      unfold RunnableSeq.init at hinit
      rw [hfs] at hinit
      have hinit2 : (if fl.length < 2 then
          (Except.error (.valueError
            ("RunnableSeq must have at least 2 steps, got " ++ toString fl.length)) :
            Except PyErr Runnable)
        else .ok (.seq fl nm)) = .ok (.seq flat nm2) := hinit
      by_cases hl : fl.length < 2
      · rw [if_pos hl] at hinit2
        exact Except.noConfusion hinit2
      · rw [if_neg hl] at hinit2
        injection hinit2 with hseq
        injection hseq with hfl2 hnm2
        subst hfl2
        exact flattenSteps_no_seq steps hok fl hfs

/-- C5 witness: appending `Sequence(wStep, wStep)` to
`Sequence(wStep, wUnitB)` gives the 4 steps in order, and the
constructor's output steps contain no sequence. -/
theorem C5_flattening_witness :
    RunnableSeq.or [wStep, wUnitB] (Option.some "s")
        (.runnable (.seq [wStep, wStep] (Option.some "t"))) =
      .ok (.seq [wStep, wUnitB, wStep, wStep]
        (pyOrStr (Option.some "s") (Option.some "t")))
    ∧ (∀ x ∈ ([wStep, wUnitB] : List Runnable), x.isSeq = false) := by
  constructor
  · exact C5_flattening.1 wStep wUnitB wStep wStep (Option.some "s")
      (Option.some "t") rfl rfl rfl rfl
  · refine C5_flattening.2 [.runnable wStep, .runnable wUnitB] Option.none
      Option.none [wStep, wUnitB] ?_ rfl
    intro s hs
    cases hs with
    | head => rfl
    | tail _ hs2 =>
      cases hs2 with
      | head => rfl
      | tail _ hs3 => cases hs3

/-- C4: invoking a 3-step sequence on `x` runs the steps fully and in
declared order — step 1 on the original input with the caller's extra
kwargs, each later step on the previous step's output with no extra
kwargs, each under its own `seq:step:<i>` child context — and returns the
final step's output, reporting it to the root span. -/
theorem C4_seq_invoke_composes (E : Env) (a b c : Runnable) (nm : Option String)
    (x : Value) (config : Option Config) (kw : Kwargs) (fuel n : Nat)
    (v1 v2 v3 : Value) (e1 e2 e3 : List Event) (n1 n2 n3 : Nat)
    (h1 : invoke E fuel a x (Option.some (seqStepConfig config n 1)) kw (n + 1) =
      ⟨.ok v1, e1, n1⟩)
    (h2 : invoke E fuel b v1 (Option.some (seqStepConfig config n 2)) [] n1 =
      ⟨.ok v2, e2, n2⟩)
    (h3 : invoke E fuel c v2 (Option.some (seqStepConfig config n 3)) [] n2 =
      ⟨.ok v3, e3, n3⟩) :
    invoke E (fuel + 1) (.seq [a, b, c] nm) x config kw n =
      ⟨.ok v3,
       Event.on_chain_start n
         (pyOrStr (ensure_config config).runName
           (Option.some (Runnable.get_name (.seq [a, b, c] nm))))
         x (ensure_config config).runId
         :: (e1 ++ (e2 ++ (e3 ++ []))) ++ [Event.on_chain_end n v3],
       n3⟩ := by
  have h1' : invoke E fuel a x (Option.some (patch_config
      (Config.mk (ensure_config config).tags (ensure_config config).runName
        Option.none (ensure_config config).callbacks)
      ⟨n, Option.some ("seq:step:" ++ toString (0 + 1))⟩))
      (if 0 = 0 then kw else []) (n + 1) = ⟨.ok v1, e1, n1⟩ := h1
  have h2' : invoke E fuel b v1 (Option.some (patch_config (patch_config
      (Config.mk (ensure_config config).tags (ensure_config config).runName
        Option.none (ensure_config config).callbacks)
      ⟨n, Option.some ("seq:step:" ++ toString (0 + 1))⟩)
      ⟨n, Option.some ("seq:step:" ++ toString (1 + 1))⟩))
      (if 1 = 0 then kw else []) n1 = ⟨.ok v2, e2, n2⟩ := h2
  have h3' : invoke E fuel c v2 (Option.some (patch_config (patch_config
      (patch_config (Config.mk (ensure_config config).tags
          (ensure_config config).runName Option.none
          (ensure_config config).callbacks)
        ⟨n, Option.some ("seq:step:" ++ toString (0 + 1))⟩)
      ⟨n, Option.some ("seq:step:" ++ toString (1 + 1))⟩)
      ⟨n, Option.some ("seq:step:" ++ toString (2 + 1))⟩))
      (if 2 = 0 then kw else []) n2 = ⟨.ok v3, e3, n3⟩ := h3
  show invokeSeq (invoke E fuel) [a, b, c] nm x config kw n = _
  unfold invokeSeq
  try dsimp only
  try unfold invokeSteps
  try dsimp only
  rw [h1']
  try dsimp only
  try unfold invokeSteps
  try dsimp only
  rw [h2']
  try dsimp only
  try unfold invokeSteps
  try dsimp only
  rw [h3']
  rfl

/-- C4 witness: three untraced incrementing steps on input 0 return 3,
with the three function calls in order inside the root span. -/
theorem C4_seq_invoke_composes_witness :
    invoke wEnv 2 (.seq [wStep, wStep, wStep] Option.none) (.int 0)
      Option.none [] 0 =
      ⟨.ok (.int 3),
       Event.on_chain_start 0
         (pyOrStr (ensure_config Option.none).runName
           (Option.some (Runnable.get_name (.seq [wStep, wStep, wStep] Option.none))))
         (.int 0) (ensure_config Option.none).runId
         :: ([Event.funcCall []] ++ ([Event.funcCall []] ++ ([Event.funcCall []] ++ []))) ++
         [Event.on_chain_end 0 (.int 3)],
       1⟩ :=
  C4_seq_invoke_composes wEnv wStep wStep wStep Option.none (.int 0)
    Option.none [] 1 0 (.int 1) (.int 2) (.int 3)
    [Event.funcCall []] [Event.funcCall []] [Event.funcCall []] 1 1 1
    rfl rfl rfl

/-- C7: a traced callable unit with `recurse` enabled whose function
returns another unit `r2` re-invokes `r2` (same mode) with the original
input and the outer resolved context — run-id consumed, callbacks NOT
replaced by the child span handle — and returns that recursive result,
never the returned unit object; with `recurse` disabled the unit object
itself is returned, and a non-unit result is returned raw. -/
theorem C7_recursion (E : Env) :
    (∀ (d : CallableData) (f : Nat) (r2 : Runnable) (input : Value)
        (cfg : Option Config) (kw : Kwargs) (fuel n : Nat),
        d.trace = true → d.recurse = true → d.func = Option.some f →
        E.senv f input (buildCallKwargs d.kwargs kw d.funcAcceptsConfig cfg) =
          .ok (.runnable r2) →
        invoke E (fuel + 1) (.callable d) input cfg kw n =
          ⟨(invoke E fuel r2 input
              (Option.some { resolvedContext d cfg with runId := Option.none })
              [] (n + 1)).res,
           [Event.on_chain_start n
              (pyOrStr (resolvedContext d cfg).runName
                (Option.some (Runnable.get_name (.callable d))))
              input (resolvedContext d cfg).runId,
            .funcCall (buildCallKwargs d.kwargs kw d.funcAcceptsConfig cfg),
            .on_chain_end n (.runnable r2)] ++
            (invoke E fuel r2 input
              (Option.some { resolvedContext d cfg with runId := Option.none })
              [] (n + 1)).evs,
           (invoke E fuel r2 input
              (Option.some { resolvedContext d cfg with runId := Option.none })
              [] (n + 1)).ctr⟩)
    ∧ (∀ (d : CallableData) (f : Nat) (r2 : Runnable) (input : Value)
        (cfg : Option Config) (kw : Kwargs) (fuel n : Nat),
        d.trace = true → d.recurse = false → d.func = Option.some f →
        E.senv f input (buildCallKwargs d.kwargs kw d.funcAcceptsConfig cfg) =
          .ok (.runnable r2) →
        invoke E (fuel + 1) (.callable d) input cfg kw n =
          ⟨.ok (.runnable r2),
           [Event.on_chain_start n
              (pyOrStr (resolvedContext d cfg).runName
                (Option.some (Runnable.get_name (.callable d))))
              input (resolvedContext d cfg).runId,
            .funcCall (buildCallKwargs d.kwargs kw d.funcAcceptsConfig cfg),
            .on_chain_end n (.runnable r2)],
           n + 1⟩)
    ∧ (∀ (d : CallableData) (f : Nat) (input : Value) (cfg : Option Config)
        (kw : Kwargs) (fuel n : Nat) (v : Value),
        d.trace = true → d.func = Option.some f →
        E.senv f input (buildCallKwargs d.kwargs kw d.funcAcceptsConfig cfg) = .ok v →
        (∀ r2, v ≠ .runnable r2) →
        (invoke E (fuel + 1) (.callable d) input cfg kw n).res = .ok v)
    ∧ (∀ (d : CallableData) (j : Nat) (r2 : Runnable) (input : Value)
        (cfg : Option Config) (kw : Kwargs) (fuel n : Nat),
        d.trace = true → d.recurse = true → d.afunc = Option.some (.native j) →
        E.aenv j input (buildCallKwargs d.kwargs kw d.afuncAcceptsConfig cfg) =
          .ok (.runnable r2) →
        ainvoke E (fuel + 1) (.callable d) input cfg kw n =
          ⟨(ainvoke E fuel r2 input
              (Option.some { resolvedContext d cfg with runId := Option.none })
              [] (n + 1)).res,
           [Event.on_chain_start n
              (pyOrStr (resolvedContext d cfg).runName d.name)
              input (resolvedContext d cfg).runId,
            .funcCall (buildCallKwargs d.kwargs kw d.afuncAcceptsConfig cfg),
            .on_chain_end n (.runnable r2)] ++
            (ainvoke E fuel r2 input
              (Option.some { resolvedContext d cfg with runId := Option.none })
              [] (n + 1)).evs,
           (ainvoke E fuel r2 input
              (Option.some { resolvedContext d cfg with runId := Option.none })
              [] (n + 1)).ctr⟩) := by
  refine ⟨?_, ?_, ?_, ?_⟩
  · intro d f r2 input cfg kw fuel n ht hr hfun hret
    show invokeCallable E (invoke E fuel) d input cfg kw n = _
    unfold invokeCallable
    rw [hfun]
    dsimp only
    rw [ht, if_pos (by decide : (true = true)), hret]
    dsimp only
    unfold maybeRecurse
    dsimp only
    rw [hr, if_pos (by decide : (true = true))]
  · intro d f r2 input cfg kw fuel n ht hr hfun hret
    show invokeCallable E (invoke E fuel) d input cfg kw n = _
    unfold invokeCallable
    rw [hfun]
    dsimp only
    rw [ht, if_pos (by decide : (true = true)), hret]
    dsimp only
    unfold maybeRecurse
    dsimp only
    rw [hr, if_neg (by decide : ¬(false = true))]
  · intro d f input cfg kw fuel n v ht hfun hret hv
    show (invokeCallable E (invoke E fuel) d input cfg kw n).res = _
    unfold invokeCallable
    rw [hfun]
    dsimp only
    rw [ht, if_pos (by decide : (true = true)), hret]
    dsimp only
    unfold maybeRecurse
    cases v with
    | runnable r2 => exact absurd rfl (hv r2)
    | int m => rfl
    | str s2 => rfl
    | bool b2 => rfl
    | pylist xs => rfl
    | dict es => rfl
    | config c2 => rfl
    | none => rfl
  · intro d j r2 input cfg kw fuel n ht hr ha haenv
    have hsplit : ainvoke E (fuel + 1) (.callable d) input cfg kw n =
        (match d.afunc with
         | Option.none => invoke E (fuel + 1) (.callable d) input cfg [] n
         | Option.some ar => ainvokeCallable E (ainvoke E fuel) d ar input cfg kw n) := rfl
    rw [hsplit, ha]
    unfold ainvokeCallable
    dsimp only
    rw [ht, if_pos (by decide : (true = true)), haenv]
    dsimp only
    unfold maybeRecurse
    dsimp only
    rw [hr, if_pos (by decide : (true = true))]

/-- C7 witness: `wRec` (traced, recursing, function returning `wUnitB`)
invoked on 1: the result is `wUnitB`'s own invocation on the original
input 1 under the outer resolved context. -/
theorem C7_recursion_witness :
    invoke wEnv 2 (.callable wRec) (.int 1) Option.none [] 0 =
      ⟨(invoke wEnv 1 wUnitB (.int 1)
          (Option.some { resolvedContext wRec Option.none with runId := Option.none })
          [] 1).res,
       [Event.on_chain_start 0
          (pyOrStr (resolvedContext wRec Option.none).runName
            (Option.some (Runnable.get_name (.callable wRec))))
          (.int 1) (resolvedContext wRec Option.none).runId,
        .funcCall (buildCallKwargs wRec.kwargs [] wRec.funcAcceptsConfig Option.none),
        .on_chain_end 0 (.runnable wUnitB)] ++
        (invoke wEnv 1 wUnitB (.int 1)
          (Option.some { resolvedContext wRec Option.none with runId := Option.none })
          [] 1).evs,
       (invoke wEnv 1 wUnitB (.int 1)
          (Option.some { resolvedContext wRec Option.none with runId := Option.none })
          [] 1).ctr⟩ :=
  (C7_recursion wEnv).1 wRec 3 wUnitB (.int 1) Option.none [] 1 0 rfl rfl rfl rfl

/-- C8 counterexample: two concrete traced invocations violating the
claim as stated.  First, invoking the traced unit `wNoFunc` (no sync
function) raises, yet no span event at all is emitted — no start, and no
error terminal receiving the exception.  Second, invoking the traced
recursing unit `wRecFail` fails (its function returns the failing unit
`wFail`, whose re-invocation raises), yet the failing invocation's own
span 0 closes with an `on_chain_end` carrying the returned unit — the
error event belongs to the recursive invocation's span 1 — so a failed
traced invocation's span did not terminate with an error event. -/
theorem C8_span_counterexample :
    ((invoke wEnv 1 (.callable wNoFunc) (.int 0) Option.none [] 0).evs = []
     ∧ (invoke wEnv 1 (.callable wNoFunc) (.int 0) Option.none [] 0).res =
         .error (.typeError (noSyncMsg (Option.some "nf")))
     ∧ wNoFunc.trace = true)
    ∧ ((invoke wEnv 2 (.callable wRecFail) (.int 1) Option.none [] 0).res =
         .error (.userError 7)
       ∧ spanEvents 0 (invoke wEnv 2 (.callable wRecFail) (.int 1)
           Option.none [] 0).evs =
         [Event.on_chain_start 0 (Option.some "rf") (.int 1) Option.none,
          Event.on_chain_end 0 (.runnable (.callable wFail))]
       ∧ wRecFail.trace = true) :=
  ⟨⟨rfl, rfl, rfl⟩, ⟨rfl, rfl, rfl⟩⟩

/-- C8 (amended): for every traced invocation that reaches its span
opening — a callable unit with its required function bound, or a
sequence, in any of the four modes — the run's own span sees exactly one
start event followed by exactly one terminal event: an end event when the
traced body completes (even if a post-end recursive re-invocation of a
returned unit later fails, that failure being reported to the recursive
invocation's own span), or an error event when the body raises, carrying
exactly the exception the invocation re-raises; a successful invocation's
terminal is always an end event.  A traced invocation that fails before
the span opens (no function bound) emits no span events. -/
theorem C8_span_lifecycle :
    (∀ (E : Env) (fuel : Nat) (d : CallableData) (f : Nat) (input : Value)
        (cfg : Option Config) (kw : Kwargs) (n : Nat),
        d.trace = true → d.func = Option.some f →
        okSpan n input (invoke E (fuel + 1) (.callable d) input cfg kw n))
    ∧ (∀ (E : Env) (fuel : Nat) (steps : List Runnable) (nm : Option String)
        (input : Value) (cfg : Option Config) (kw : Kwargs) (n : Nat),
        okSpan n input (invoke E (fuel + 1) (.seq steps nm) input cfg kw n))
    ∧ (∀ (E : Env) (fuel : Nat) (d : CallableData) (ar : AFuncRef) (input : Value)
        (cfg : Option Config) (kw : Kwargs) (n : Nat),
        d.trace = true → d.afunc = Option.some ar →
        okSpan n input (ainvoke E (fuel + 1) (.callable d) input cfg kw n))
    ∧ (∀ (E : Env) (fuel : Nat) (steps : List Runnable) (nm : Option String)
        (input : Value) (cfg : Option Config) (kw : Kwargs) (n : Nat),
        okSpan n input (ainvoke E (fuel + 1) (.seq steps nm) input cfg kw n))
    ∧ (∀ (steps : List Runnable) (nm : Option String) (input : Value)
        (cfg : Option Config) (chunks : List Value) (iterErr : Option PyErr)
        (n : Nat),
        (RunnableSeq.streamRun steps nm input cfg chunks iterErr n).1 = chunks
        ∧ ∃ nmv rid term,
          (RunnableSeq.streamRun steps nm input cfg chunks iterErr n).2.2.1 =
            [Event.on_chain_start n nmv input rid, term]
          ∧ ((iterErr = Option.none ∧ (∃ out, term = Event.on_chain_end n out)
              ∧ (RunnableSeq.streamRun steps nm input cfg chunks iterErr n).2.1 = .ok ())
             ∨ (∃ e, iterErr = Option.some e ∧ term = Event.on_chain_error n e
              ∧ (RunnableSeq.streamRun steps nm input cfg chunks iterErr n).2.1 = .error e)))
    ∧ (∀ (steps : List Runnable) (nm : Option String) (input : Value)
        (cfg : Option Config) (chunks : List Value) (iterErr : Option PyErr)
        (n : Nat),
        (RunnableSeq.astreamRun steps nm input cfg chunks iterErr n).1 = chunks
        ∧ ∃ nmv rid term,
          (RunnableSeq.astreamRun steps nm input cfg chunks iterErr n).2.2.1 =
            [Event.on_chain_start n nmv input rid, term]
          ∧ ((iterErr = Option.none ∧ (∃ out, term = Event.on_chain_end n out)
              ∧ (RunnableSeq.astreamRun steps nm input cfg chunks iterErr n).2.1 = .ok ())
             ∨ (∃ e, iterErr = Option.some e ∧ term = Event.on_chain_error n e
              ∧ (RunnableSeq.astreamRun steps nm input cfg chunks iterErr n).2.1 = .error e))) := by
  refine ⟨?_, ?_, ?_, ?_, ?_, ?_⟩
  · intro E fuel d f input cfg kw n ht hfun
    show okSpan n input (invokeCallable E (invoke E fuel) d input cfg kw n)
    exact invokeCallable_span E _ (invoke_fresh E fuel) d f input cfg kw n ht hfun
  · intro E fuel steps nm input cfg kw n
    show okSpan n input (invokeSeq (invoke E fuel) steps nm input cfg kw n)
    exact invokeSeq_span _ (invoke_fresh E fuel) steps nm input cfg kw n
  · intro E fuel d ar input cfg kw n ht ha
    have hsplit : ainvoke E (fuel + 1) (.callable d) input cfg kw n =
        (match d.afunc with
         | Option.none => invoke E (fuel + 1) (.callable d) input cfg [] n
         | Option.some ar2 => ainvokeCallable E (ainvoke E fuel) d ar2 input cfg kw n) := rfl
    rw [hsplit, ha]
    exact ainvokeCallable_span E _ (ainvoke_fresh E fuel) d ar input cfg kw n ht
  · intro E fuel steps nm input cfg kw n
    show okSpan n input (invokeSeq (ainvoke E fuel) steps nm input cfg kw n)
    exact invokeSeq_span _ (ainvoke_fresh E fuel) steps nm input cfg kw n
  · intro steps nm input cfg chunks iterErr n
    cases iterErr with
    | none =>
      exact ⟨rfl, _, _, Event.on_chain_end n (streamLoop Value.none false chunks).1,
        rfl, Or.inl ⟨rfl, ⟨_, rfl⟩, rfl⟩⟩
    | some e =>
      exact ⟨rfl, _, _, Event.on_chain_error n e, rfl, Or.inr ⟨e, rfl, rfl, rfl⟩⟩
  · intro steps nm input cfg chunks iterErr n
    cases iterErr with
    | none =>
      exact ⟨rfl, _, _, Event.on_chain_end n (astreamLoop Value.none false chunks).1,
        rfl, Or.inl ⟨rfl, ⟨_, rfl⟩, rfl⟩⟩
    | some e =>
      exact ⟨rfl, _, _, Event.on_chain_error n e, rfl, Or.inr ⟨e, rfl, rfl, rfl⟩⟩

/-- C8 witness: the amended statement's parts at concrete runs — the
failing traced unit `wFail` (span closes with the error it re-raises),
a concrete sequence, and a stream run. -/
theorem C8_span_lifecycle_witness :
    okSpan 0 (.int 1) (invoke wEnv 1 (.callable wFail) (.int 1) Option.none [] 0)
    ∧ okSpan 0 (.int 0)
        (invoke wEnv 2 (.seq [wStep, wStep] Option.none) (.int 0) Option.none [] 0)
    ∧ okSpan 0 (.int 0)
        (ainvoke wEnv 1 (.callable wAsyncTraced) (.int 0) Option.none [] 0) :=
  ⟨C8_span_lifecycle.1 wEnv 0 wFail 2 (.int 1) Option.none [] 0 rfl rfl,
   C8_span_lifecycle.2.1 wEnv 1 [wStep, wStep] Option.none (.int 0) Option.none [] 0,
   C8_span_lifecycle.2.2.1 wEnv 0 wAsyncTraced (.native 5) (.int 0) Option.none [] 0
     rfl rfl⟩
